import Mathlib

set_option maxHeartbeats 1600000
set_option maxRecDepth 100000

/-!
Shallow embedding of the omnify SQL migration generator
(schema-to-DDL compilation pipeline): dialect type catalog, SQL text
formatter, table builder, pivot table builders, compatibility validator
and migration orchestrator, together with theorems about the embedded
functions.  JavaScript objects iterated with `Object.entries` are
modelled as association lists preserving insertion order; `undefined`
optional fields are modelled with `Option`; the `throw` in the
validator is modelled with `Except`.
-/

/-- Single-quote character (code 39), used to build SQL string literals. -/
def sqChar : Char := Char.ofNat 39

/-- Single-quote as a string. -/
def sqStr : String := sqChar.toString

/-- Substring occurrence test on character lists (models JS `String.prototype.includes`). -/
def listInfix : List Char → List Char → Bool
  | pat, [] => pat.isEmpty
  | pat, c :: rest => pat.isPrefixOf (c :: rest) || listInfix pat rest

/-- String substring test (models JS `String.prototype.includes`). -/
def strContains (s pat : String) : Bool := listInfix pat.data s.data

/-- Models JS `String.prototype.endsWith` (list-level, kernel-reducible). -/
def strEndsWith (s suffix : String) : Bool := suffix.data.isSuffixOf s.data

/-- Models JS `String.prototype.slice(0, -n)`: drop the last `n` characters. -/
def strDropRight (s : String) (n : Nat) : String := String.mk (s.data.take (s.data.length - n))

/-- Models JS `Array.prototype.join`. -/
def joinSep (sep : String) : List String → String
  | [] => ""
  | [x] => x
  | x :: y :: rest => x ++ sep ++ joinSep sep (y :: rest)

/-- Models JS `String.prototype.padStart(target, pad)` for a one-character pad. -/
def padStart (s : String) (target : Nat) (pad : Char) : String :=
  String.mk (List.replicate (target - s.length) pad) ++ s

/-- Models `toSnakeCase` (schema-builder): replace each ASCII capital with
underscore + lowercase, then strip a single leading underscore. -/
def toSnakeCase (str : String) : String :=
  let expanded := String.mk (str.data.flatMap (fun c => if c.isUpper then ['_', c.toLower] else [c]))
  match expanded.data with
  | '_' :: rest => String.mk rest
  | _ => expanded

/-- Models `toTableName` (schema-builder): snake_case + simple pluralization. -/
def toTableName (schemaName : String) : String :=
  let snake := toSnakeCase schemaName
  if strEndsWith snake "y" && !(["ay", "ey", "oy", "uy"].any (fun v => strEndsWith snake v)) then
    strDropRight snake 1 ++ "ies"
  else if strEndsWith snake "s" || strEndsWith snake "x" || strEndsWith snake "ch" || strEndsWith snake "sh" then
    snake ++ "es"
  else
    snake ++ "s"

/-- Models `toColumnName` (schema-builder). -/
def toColumnName (propertyName : String) : String := toSnakeCase propertyName

/-- Models `replace(/s$/, '')`: drop one trailing `s` when present. -/
def stripTrailingS (s : String) : String := if strEndsWith s "s" then strDropRight s 1 else s

/-- Supported SQL dialects (types.ts `SqlDialect`). -/
inductive SqlDialect
  | mysql
  | postgresql
  | sqlite
deriving DecidableEq, Repr

/-- Dialect rendered as its source string literal. -/
def dialectStr : SqlDialect → String
  | .mysql => "mysql"
  | .postgresql => "postgresql"
  | .sqlite => "sqlite"

instance : BEq SqlDialect := ⟨fun a b => decide (a = b)⟩

/-- Migration kind (types.ts `SqlMigration.type`). -/
inductive MigrationType
  | create
  | alter
  | drop
  | pivot
deriving DecidableEq, Repr

instance : BEq MigrationType := ⟨fun a b => decide (a = b)⟩

/-- SQL column definition (types.ts `SqlColumn`). -/
structure SqlColumn where
  name : String
  type : String
  nullable : Bool
  defaultValue : Option String := none
  primaryKey : Bool
  autoIncrement : Bool
  unique : Bool
  unsigned : Bool
  comment : Option String := none
deriving DecidableEq, Repr

/-- SQL foreign key definition (types.ts `SqlForeignKey`). -/
structure SqlForeignKey where
  name : String
  columns : List String
  referencesTable : String
  referencesColumns : List String
  onDelete : String
  onUpdate : String
deriving DecidableEq, Repr

/-- SQL index definition (types.ts `SqlIndex`). -/
structure SqlIndex where
  name : String
  columns : List String
  unique : Bool
  type : Option String := none
deriving DecidableEq, Repr

/-- SQL table definition (types.ts `SqlTable`). -/
structure SqlTable where
  name : String
  columns : List SqlColumn
  foreignKeys : List SqlForeignKey
  indexes : List SqlIndex
  comment : Option String := none
deriving DecidableEq, Repr

/-- SQL migration artifact (types.ts `SqlMigration`). -/
structure SqlMigration where
  version : Int
  name : String
  fileName : String
  content : String
  tables : List String
  type : MigrationType
deriving DecidableEq, Repr

/-- Default value of a property: JS runtime type dispatch (string / boolean / other)
is modelled as a tagged union. -/
inductive DefaultValue
  | str (s : String)
  | boolean (b : Bool)
  | num (n : Int)
deriving DecidableEq, Repr

/-- JS `String(default)` of a default value. -/
def defaultRawString : DefaultValue → String
  | .str s => s
  | .boolean b => if b then "true" else "false"
  | .num n => toString n

/-- The `enum` field of a property: either a reference to an enum schema (a string
in the source) or an explicit value array (`Array.isArray` discriminates). -/
inductive EnumSpec
  | ref (name : String)
  | values (vs : List String)
deriving DecidableEq, Repr

/-- Custom index declaration in schema options. -/
structure IndexDefinition where
  name : Option String := none
  columns : List String
  unique : Option Bool := none
  type : Option String := none
deriving DecidableEq, Repr

/-- The `unique` schema option: either a single flat column list or a list of
column groups (the source discriminates with `Array.isArray(unique[0])`). -/
inductive UniqueSpec
  | flat (columns : List String)
  | nested (groups : List (List String))
deriving DecidableEq, Repr

/-- Schema entity options. -/
structure SchemaOptions where
  id : Option Bool := none
  idType : Option String := none
  timestamps : Option Bool := none
  softDelete : Option Bool := none
  indexes : Option (List IndexDefinition) := none
  unique : Option UniqueSpec := none
deriving DecidableEq, Repr

/-- Property definition: the duck-typed union of the source is modelled as one
record of optional fields; `targets` uses `[]` for an absent list. -/
structure PropertyDefinition where
  type : String
  nullable : Option Bool := none
  unique : Option Bool := none
  default : Option DefaultValue := none
  displayName : Option String := none
  length : Option Nat := none
  precision : Option Nat := none
  scale : Option Nat := none
  enum : Option EnumSpec := none
  options : Option (List String) := none
  relation : Option String := none
  target : Option String := none
  targets : List String := []
  joinTable : Option String := none
  onDelete : Option String := none
  onUpdate : Option String := none
deriving DecidableEq, Repr

/-- Loaded schema entity: `properties` is an insertion-ordered association list
(absent and `\x7b\x7d` behave identically, both modelled by `[]`). -/
structure LoadedSchema where
  name : String
  kind : String
  properties : List (String × PropertyDefinition) := []
  options : Option SchemaOptions := none
  displayName : Option String := none
deriving DecidableEq, Repr

/-- Schema collection: insertion-ordered mapping from schema name to schema. -/
abbrev SchemaCollection : Type := List (String × LoadedSchema)

/-- Keys of a schema collection, in insertion order (JS `Object.keys`). -/
def scKeys (schemas : SchemaCollection) : List String :=
  schemas.map Prod.fst

/-- Name lookup in a schema collection (JS `schemas[name]`). -/
def scLookup (schemas : SchemaCollection) (name : String) : Option LoadedSchema :=
  (schemas.find? (fun p => p.1 == name)).map Prod.snd

/-- JS truthiness of an optional string: `undefined` and `""` are falsy. -/
def optNonempty (o : Option String) : Option String :=
  match o with
  | some t => if t == "" then none else some t
  | none => none

/-- External adapter from omnify-types, out of scope of the core: resolves a
localized string; modelled as the identity on an optional plain string. -/
def resolveLocalizedString (s : Option String) : Option String := s

/-- Generator options (all optional; `version` models the `& \x7b version? \x7d`
extension accepted by the narrower entry points). -/
structure SqlGeneratorOptions where
  dialect : Option SqlDialect := none
  ifNotExists : Option Bool := none
  generateDown : Option Bool := none
  startVersion : Option Int := none
  versionPadding : Option Nat := none
  version : Option Int := none
deriving DecidableEq, Repr

/-- Resolved generator options. -/
structure ResolvedSqlOptions where
  dialect : SqlDialect
  ifNotExists : Bool
  generateDown : Bool
  startVersion : Int
  versionPadding : Nat
deriving DecidableEq, Repr

/-- Models `resolveOptions` (generator). -/
def resolveOptions (options : SqlGeneratorOptions) : ResolvedSqlOptions :=
  { dialect := options.dialect.getD .mysql
    ifNotExists := options.ifNotExists.getD true
    generateDown := options.generateDown.getD true
    startVersion := options.startVersion.getD 1
    versionPadding := options.versionPadding.getD 4 }

/-- Type mapping entry of the dialect type catalog (dialects/types.ts). -/
structure TypeMapping where
  type : String
  hasLength : Bool := false
  defaultLength : Option Nat := none
  hasPrecision : Bool := false
deriving DecidableEq, Repr

/-- MySQL type mappings (`MYSQL_TYPES`). -/
def mysqlTypes (t : String) : Option TypeMapping :=
  if t == "String" then some { type := "VARCHAR", hasLength := true, defaultLength := some 255 }
  else if t == "Int" then some { type := "INT" }
  else if t == "BigInt" then some { type := "BIGINT" }
  else if t == "Float" then some { type := "DOUBLE" }
  else if t == "Decimal" then some { type := "DECIMAL", hasPrecision := true }
  else if t == "Boolean" then some { type := "TINYINT(1)" }
  else if t == "Text" then some { type := "TEXT" }
  else if t == "LongText" then some { type := "LONGTEXT" }
  else if t == "Date" then some { type := "DATE" }
  else if t == "Time" then some { type := "TIME" }
  else if t == "Timestamp" then some { type := "TIMESTAMP" }
  else if t == "Json" then some { type := "JSON" }
  else if t == "Email" then some { type := "VARCHAR", hasLength := true, defaultLength := some 255 }
  else if t == "Password" then some { type := "VARCHAR", hasLength := true, defaultLength := some 255 }
  else if t == "File" then some { type := "VARCHAR", hasLength := true, defaultLength := some 255 }
  else if t == "MultiFile" then some { type := "JSON" }
  else if t == "Uuid" then some { type := "CHAR(36)" }
  else if t == "Select" then some { type := "VARCHAR", hasLength := true, defaultLength := some 255 }
  else if t == "Lookup" then some { type := "BIGINT UNSIGNED" }
  else if t == "Point" then some { type := "POINT" }
  else if t == "Coordinates" then some { type := "DECIMAL(10, 8)" }
  else none

/-- PostgreSQL type mappings (`POSTGRESQL_TYPES`). -/
def postgresqlTypes (t : String) : Option TypeMapping :=
  if t == "String" then some { type := "VARCHAR", hasLength := true, defaultLength := some 255 }
  else if t == "Int" then some { type := "INTEGER" }
  else if t == "BigInt" then some { type := "BIGINT" }
  else if t == "Float" then some { type := "DOUBLE PRECISION" }
  else if t == "Decimal" then some { type := "DECIMAL", hasPrecision := true }
  else if t == "Boolean" then some { type := "BOOLEAN" }
  else if t == "Text" then some { type := "TEXT" }
  else if t == "LongText" then some { type := "TEXT" }
  else if t == "Date" then some { type := "DATE" }
  else if t == "Time" then some { type := "TIME" }
  else if t == "Timestamp" then some { type := "TIMESTAMP" }
  else if t == "Json" then some { type := "JSONB" }
  else if t == "Email" then some { type := "VARCHAR", hasLength := true, defaultLength := some 255 }
  else if t == "Password" then some { type := "VARCHAR", hasLength := true, defaultLength := some 255 }
  else if t == "File" then some { type := "VARCHAR", hasLength := true, defaultLength := some 255 }
  else if t == "MultiFile" then some { type := "JSONB" }
  else if t == "Uuid" then some { type := "UUID" }
  else if t == "Select" then some { type := "VARCHAR", hasLength := true, defaultLength := some 255 }
  else if t == "Lookup" then some { type := "BIGINT" }
  else if t == "Point" then some { type := "geometry(Point, 4326)" }
  else if t == "Coordinates" then some { type := "DECIMAL(10, 8)" }
  else none

/-- SQLite type mappings (`SQLITE_TYPES`). -/
def sqliteTypes (t : String) : Option TypeMapping :=
  if t == "String" then some { type := "TEXT" }
  else if t == "Int" then some { type := "INTEGER" }
  else if t == "BigInt" then some { type := "INTEGER" }
  else if t == "Float" then some { type := "REAL" }
  else if t == "Decimal" then some { type := "REAL" }
  else if t == "Boolean" then some { type := "INTEGER" }
  else if t == "Text" then some { type := "TEXT" }
  else if t == "LongText" then some { type := "TEXT" }
  else if t == "Date" then some { type := "TEXT" }
  else if t == "Time" then some { type := "TEXT" }
  else if t == "Timestamp" then some { type := "TEXT" }
  else if t == "Json" then some { type := "TEXT" }
  else if t == "Email" then some { type := "TEXT" }
  else if t == "Password" then some { type := "TEXT" }
  else if t == "File" then some { type := "TEXT" }
  else if t == "MultiFile" then some { type := "TEXT" }
  else if t == "Uuid" then some { type := "TEXT" }
  else if t == "Select" then some { type := "TEXT" }
  else if t == "Lookup" then some { type := "INTEGER" }
  else if t == "Point" then some { type := "TEXT" }
  else if t == "Coordinates" then some { type := "REAL" }
  else none

/-- Dialect dispatch table (`DIALECT_TYPES`). -/
def dialectTypes (dialect : SqlDialect) : String → Option TypeMapping :=
  match dialect with
  | .mysql => mysqlTypes
  | .postgresql => postgresqlTypes
  | .sqlite => sqliteTypes

/-- Models `getSqlType` (dialects/types.ts); `options?.precision` is a JS
truthiness test, so precision 0 does not trigger the parenthetical. -/
def getSqlType (omnifyType : String) (dialect : SqlDialect)
    (length precision scale : Option Nat) : String :=
  match dialectTypes dialect omnifyType with
  | none => if dialect == .sqlite then "TEXT" else "VARCHAR(255)"
  | some mapping =>
    let t := mapping.type
    let t := if mapping.hasLength then
        t ++ "(" ++ toString (length.getD (mapping.defaultLength.getD 255)) ++ ")"
      else t
    match precision with
    | some p =>
      if mapping.hasPrecision && p != 0 then
        t ++ "(" ++ toString p ++ ", " ++ toString (scale.getD 2) ++ ")"
      else t
    | none => t

/-- Result of primary key type resolution. -/
structure PrimaryKeyInfo where
  type : String
  autoIncrement : Bool
deriving DecidableEq, Repr

/-- Models `getPrimaryKeyType` (dialects/types.ts); the idType is a string in
the embedding because the source casts an arbitrary option value, with the
final `return` as fallback for unmatched values. -/
def getPrimaryKeyType (idType : String) (dialect : SqlDialect) : PrimaryKeyInfo :=
  match dialect with
  | .mysql =>
    if idType == "Int" then { type := "INT UNSIGNED", autoIncrement := true }
    else if idType == "BigInt" then { type := "BIGINT UNSIGNED", autoIncrement := true }
    else if idType == "Uuid" then { type := "CHAR(36)", autoIncrement := false }
    else if idType == "String" then { type := "VARCHAR(255)", autoIncrement := false }
    else { type := "BIGINT", autoIncrement := true }
  | .postgresql =>
    if idType == "Int" then { type := "SERIAL", autoIncrement := false }
    else if idType == "BigInt" then { type := "BIGSERIAL", autoIncrement := false }
    else if idType == "Uuid" then { type := "UUID", autoIncrement := false }
    else if idType == "String" then { type := "VARCHAR(255)", autoIncrement := false }
    else { type := "BIGINT", autoIncrement := true }
  | .sqlite =>
    if idType == "Int" || idType == "BigInt" then { type := "INTEGER", autoIncrement := true }
    else if idType == "Uuid" || idType == "String" then { type := "TEXT", autoIncrement := false }
    else { type := "BIGINT", autoIncrement := true }

/-- Models `getForeignKeyType` (dialects/types.ts). -/
def getForeignKeyType (referencedIdType : String) (dialect : SqlDialect) : String :=
  match dialect with
  | .mysql =>
    if referencedIdType == "Int" then "INT UNSIGNED"
    else if referencedIdType == "BigInt" then "BIGINT UNSIGNED"
    else if referencedIdType == "Uuid" then "CHAR(36)"
    else if referencedIdType == "String" then "VARCHAR(255)"
    else "BIGINT"
  | .postgresql =>
    if referencedIdType == "Int" then "INTEGER"
    else if referencedIdType == "BigInt" then "BIGINT"
    else if referencedIdType == "Uuid" then "UUID"
    else if referencedIdType == "String" then "VARCHAR(255)"
    else "BIGINT"
  | .sqlite =>
    if referencedIdType == "Int" || referencedIdType == "BigInt" then "INTEGER"
    else if referencedIdType == "Uuid" || referencedIdType == "String" then "TEXT"
    else "BIGINT"

/-- Result of enum type resolution. -/
structure EnumTypeInfo where
  type : String
  preStatement : Option String := none
deriving DecidableEq, Repr

/-- Models `getEnumType` (dialects/types.ts). -/
def getEnumType (values : List String) (dialect : SqlDialect)
    (enumName : Option String) : EnumTypeInfo :=
  match dialect with
  | .mysql =>
    let enumValues := joinSep ", " (values.map (fun v => sqStr ++ v ++ sqStr))
    { type := "ENUM(" ++ enumValues ++ ")" }
  | .postgresql =>
    let typeName := enumName.getD "enum_type"
    let pgValues := joinSep ", " (values.map (fun v => sqStr ++ v ++ sqStr))
    { type := typeName
      preStatement := some ("CREATE TYPE " ++ typeName ++ " AS ENUM (" ++ pgValues ++ ");") }
  | .sqlite => { type := "TEXT" }

/-- Models `quoteIdentifier` (dialects/formatter.ts). -/
def quoteIdentifier (name : String) (dialect : SqlDialect) : String :=
  match dialect with
  | .mysql => "`" ++ name ++ "`"
  | .postgresql => "\"" ++ name ++ "\""
  | .sqlite => "\"" ++ name ++ "\""

/-- Models `quoteString` (dialects/formatter.ts): single-quote wrapping with
doubling of embedded single quotes. -/
def quoteString (value : String) : String :=
  sqStr ++ String.mk (value.data.flatMap (fun c => if c == sqChar then [c, c] else [c])) ++ sqStr

/-- Models `formatColumn` (dialects/formatter.ts). -/
def formatColumn (column : SqlColumn) (dialect : SqlDialect) : String :=
  let parts : List String := [quoteIdentifier column.name dialect, column.type]
  let parts := if dialect == .mysql && column.unsigned && !(strContains column.type "UNSIGNED") then
      parts ++ ["UNSIGNED"] else parts
  let parts := if !column.nullable && !column.primaryKey then parts ++ ["NOT NULL"]
    else if column.nullable then parts ++ ["NULL"] else parts
  let parts := if column.autoIncrement && dialect == .mysql then parts ++ ["AUTO_INCREMENT"] else parts
  let parts := if column.primaryKey then
      parts ++ ["PRIMARY KEY"] ++ (if dialect == .sqlite && column.autoIncrement then ["AUTOINCREMENT"] else [])
    else parts
  let parts := if column.unique && !column.primaryKey then parts ++ ["UNIQUE"] else parts
  let parts := match column.defaultValue with
    | some d => parts ++ ["DEFAULT " ++ d]
    | none => parts
  let parts := match column.comment with
    | some c => if c != "" && dialect == .mysql then parts ++ ["COMMENT " ++ quoteString c] else parts
    | none => parts
  joinSep " " parts

/-- Models `formatForeignKey` (dialects/formatter.ts). -/
def formatForeignKey (fk : SqlForeignKey) (dialect : SqlDialect) : String :=
  let localCols := joinSep ", " (fk.columns.map (quoteIdentifier · dialect))
  let refCols := joinSep ", " (fk.referencesColumns.map (quoteIdentifier · dialect))
  let refTable := quoteIdentifier fk.referencesTable dialect
  let sql := "CONSTRAINT " ++ quoteIdentifier fk.name dialect ++ " FOREIGN KEY (" ++ localCols
    ++ ") REFERENCES " ++ refTable ++ " (" ++ refCols ++ ")"
  let sql := if fk.onDelete != "" && fk.onDelete != "NO ACTION" then sql ++ " ON DELETE " ++ fk.onDelete else sql
  let sql := if fk.onUpdate != "" && fk.onUpdate != "NO ACTION" then sql ++ " ON UPDATE " ++ fk.onUpdate else sql
  sql

/-- Models `formatIndex` (dialects/formatter.ts). -/
def formatIndex (index : SqlIndex) (tableName : String) (dialect : SqlDialect) : String :=
  let cols := joinSep ", " (index.columns.map (quoteIdentifier · dialect))
  let table := quoteIdentifier tableName dialect
  let name := quoteIdentifier index.name dialect
  if index.type == some "fulltext" then
    match dialect with
    | .mysql => "CREATE FULLTEXT INDEX " ++ name ++ " ON " ++ table ++ " (" ++ cols ++ ");"
    | .postgresql =>
      let tsvectorCols := joinSep " || " (index.columns.map (fun c =>
        "to_tsvector(" ++ sqStr ++ "english" ++ sqStr ++ ", " ++ quoteIdentifier c dialect ++ ")"))
      "CREATE INDEX " ++ name ++ " ON " ++ table ++ " USING GIN (" ++ tsvectorCols ++ ");"
    | .sqlite => "CREATE INDEX " ++ name ++ " ON " ++ table ++ " (" ++ cols ++ ");"
  else if index.type == some "spatial" then
    match dialect with
    | .mysql => "CREATE SPATIAL INDEX " ++ name ++ " ON " ++ table ++ " (" ++ cols ++ ");"
    | .postgresql => "CREATE INDEX " ++ name ++ " ON " ++ table ++ " USING GIST (" ++ cols ++ ");"
    | .sqlite => "CREATE INDEX " ++ name ++ " ON " ++ table ++ " (" ++ cols ++ ");"
  else if index.type == some "gin" && dialect == .postgresql then
    "CREATE INDEX " ++ name ++ " ON " ++ table ++ " USING GIN (" ++ cols ++ ");"
  else if index.type == some "gist" && dialect == .postgresql then
    "CREATE INDEX " ++ name ++ " ON " ++ table ++ " USING GIST (" ++ cols ++ ");"
  else if index.type == some "hash" then
    match dialect with
    | .mysql => "CREATE INDEX " ++ name ++ " ON " ++ table ++ " (" ++ cols ++ ") USING HASH;"
    | .postgresql => "CREATE INDEX " ++ name ++ " ON " ++ table ++ " USING HASH (" ++ cols ++ ");"
    | .sqlite => "CREATE INDEX " ++ name ++ " ON " ++ table ++ " (" ++ cols ++ ");"
  else
    let indexType := if index.unique then "UNIQUE INDEX" else "INDEX"
    "CREATE " ++ indexType ++ " " ++ name ++ " ON " ++ table ++ " (" ++ cols ++ ");"

/-- Models `formatCreateTable` (dialects/formatter.ts). -/
def formatCreateTable (table : SqlTable) (dialect : SqlDialect) (ifNotExists : Bool) : String :=
  let tableName := quoteIdentifier table.name dialect
  let ine := if ifNotExists then "IF NOT EXISTS " else ""
  let lines := table.columns.map (fun c => "  " ++ formatColumn c dialect)
    ++ table.foreignKeys.map (fun fk => "  " ++ formatForeignKey fk dialect)
  let sql := "CREATE TABLE " ++ ine ++ tableName ++ " (\n" ++ joinSep ",\n" lines ++ "\n)"
  let sql := if dialect == .mysql then
      sql ++ " ENGINE=InnoDB DEFAULT CHARSET=utf8mb4 COLLATE=utf8mb4_unicode_ci"
    else sql
  let sql := sql ++ ";"
  match table.comment with
  | some c =>
    if c != "" && dialect == .postgresql then
      sql ++ "\n\nCOMMENT ON TABLE " ++ tableName ++ " IS " ++ quoteString c ++ ";"
    else sql
  | none => sql

/-- Models `formatDropTable` (dialects/formatter.ts). -/
def formatDropTable (tableName : String) (dialect : SqlDialect) (ifExists cascade : Bool) : String :=
  let table := quoteIdentifier tableName dialect
  let ie := if ifExists then "IF EXISTS " else ""
  let ca := if cascade && dialect == .postgresql then " CASCADE" else ""
  "DROP TABLE " ++ ie ++ table ++ ca ++ ";"

/-- Models `formatIndexes` (dialects/formatter.ts). -/
def formatIndexes (table : SqlTable) (dialect : SqlDialect) : List String :=
  table.indexes.map (fun index => formatIndex index table.name dialect)

/-- Models `formatColumnComments` (dialects/formatter.ts): PostgreSQL only. -/
def formatColumnComments (table : SqlTable) (dialect : SqlDialect) : List String :=
  if dialect != .postgresql then []
  else
    table.columns.filterMap (fun column =>
      match column.comment with
      | some c =>
        if c != "" then
          some ("COMMENT ON COLUMN " ++ quoteIdentifier table.name dialect ++ "."
            ++ quoteIdentifier column.name dialect ++ " IS " ++ quoteString c ++ ";")
        else none
      | none => none)

/-- Models `generatePrimaryKey` (schema-builder). -/
def generatePrimaryKey (idType : String) (dialect : SqlDialect) : SqlColumn :=
  let pkInfo := getPrimaryKeyType idType dialect
  { name := "id", type := pkInfo.type, nullable := false, primaryKey := true
    autoIncrement := pkInfo.autoIncrement, unique := false, unsigned := false }

/-- Models `generateTimestampColumns` (schema-builder). -/
def generateTimestampColumns (dialect : SqlDialect) : List SqlColumn :=
  let timestampType := if dialect == .sqlite then "TEXT" else "TIMESTAMP"
  [ { name := "created_at", type := timestampType, nullable := true, primaryKey := false
      autoIncrement := false, unique := false, unsigned := false },
    { name := "updated_at", type := timestampType, nullable := true, primaryKey := false
      autoIncrement := false, unique := false, unsigned := false } ]

/-- Models `generateSoftDeleteColumn` (schema-builder). -/
def generateSoftDeleteColumn (dialect : SqlDialect) : SqlColumn :=
  let timestampType := if dialect == .sqlite then "TEXT" else "TIMESTAMP"
  { name := "deleted_at", type := timestampType, nullable := true, primaryKey := false
    autoIncrement := false, unique := false, unsigned := false }

/-- Models `generateCoordinatesColumns` (schema-builder). -/
def generateCoordinatesColumns (name : String) (property : PropertyDefinition)
    (dialect : SqlDialect) : List SqlColumn :=
  let baseName := toColumnName name
  let nullable := property.nullable.getD false
  let latType := if dialect == .sqlite then "REAL" else "DECIMAL(10, 8)"
  let lonType := if dialect == .sqlite then "REAL" else "DECIMAL(11, 8)"
  [ { name := baseName ++ "_latitude", type := latType, nullable := nullable, primaryKey := false
      autoIncrement := false, unique := false, unsigned := false
      comment := some ("Latitude for " ++ name) },
    { name := baseName ++ "_longitude", type := lonType, nullable := nullable, primaryKey := false
      autoIncrement := false, unique := false, unsigned := false
      comment := some ("Longitude for " ++ name) } ]

/-- Models the JS template `'${default}'` used in the Enum/Select branches. -/
def quotedRawDefault (d : DefaultValue) : String := sqStr ++ defaultRawString d ++ sqStr

/-- Models the per-kind default value formatting of `propertyToColumn`. -/
def formatDefaultValue (d : DefaultValue) (dialect : SqlDialect) : String :=
  match d with
  | .str s => sqStr ++ s ++ sqStr
  | .boolean b =>
    if dialect == .postgresql then (if b then "TRUE" else "FALSE")
    else (if b then "1" else "0")
  | .num n => toString n

/-- Models `propertyToColumn` (schema-builder): associations and coordinates
yield no plain column; Enum with an explicit value array and Select with an
options array use the enum resolver; everything else uses the type catalog. -/
def propertyToColumn (name : String) (property : PropertyDefinition) (dialect : SqlDialect)
    (_allSchemas : SchemaCollection) : Option SqlColumn :=
  if property.type == "Association" then none
  else if property.type == "Coordinates" then none
  else
    let columnName := toColumnName name
    match property.type, property.enum with
    | "Enum", some (.values vs) =>
      let enumInfo := getEnumType vs dialect (some (columnName ++ "_enum"))
      some { name := columnName, type := enumInfo.type, nullable := property.nullable.getD false
             primaryKey := false, autoIncrement := false, unique := property.unique.getD false
             unsigned := false, defaultValue := property.default.map quotedRawDefault
             comment := property.displayName }
    | _, _ =>
      match property.type, property.options with
      | "Select", some opts =>
        let enumInfo := getEnumType opts dialect (some (columnName ++ "_enum"))
        some { name := columnName, type := enumInfo.type, nullable := property.nullable.getD false
               primaryKey := false, autoIncrement := false, unique := property.unique.getD false
               unsigned := false, defaultValue := property.default.map quotedRawDefault
               comment := property.displayName }
      | _, _ =>
        let sqlType := getSqlType property.type dialect property.length property.precision property.scale
        some { name := columnName, type := sqlType, nullable := property.nullable.getD false
               primaryKey := false, autoIncrement := false, unique := property.unique.getD false
               unsigned := false
               defaultValue := property.default.map (fun d => formatDefaultValue d dialect)
               comment := property.displayName }

/-- Models `generateForeignKey` (schema-builder): owning-side
ManyToOne/OneToOne relations only. -/
def generateForeignKey (name : String) (property : PropertyDefinition) (schema : LoadedSchema)
    (dialect : SqlDialect) (allSchemas : SchemaCollection) : Option (SqlColumn × SqlForeignKey) :=
  if property.type != "Association" then none
  else if !((property.relation.getD "") == "ManyToOne" || (property.relation.getD "") == "OneToOne") then none
  else
    match optNonempty property.target with
    | none => none
    | some targetName =>
      let targetSchema := scLookup allSchemas targetName
      let targetIdType := (targetSchema.bind (fun s => s.options.bind (·.idType))).getD "BigInt"
      let columnName := toColumnName name ++ "_id"
      let fkType := getForeignKeyType targetIdType dialect
      let constraintName := "fk_" ++ toTableName schema.name ++ "_" ++ columnName
      some
        ({ name := columnName, type := fkType, nullable := property.nullable.getD false
           primaryKey := false, autoIncrement := false, unique := false
           unsigned := dialect == .mysql && (targetIdType == "Int" || targetIdType == "BigInt") },
         { name := constraintName, columns := [columnName]
           referencesTable := toTableName targetName, referencesColumns := ["id"]
           onDelete := property.onDelete.getD "CASCADE", onUpdate := property.onUpdate.getD "CASCADE" })

/-- UUID-capable morph id column type per dialect (schema-builder inline). -/
def morphUuidIdType : SqlDialect → String
  | .mysql => "CHAR(36)"
  | .postgresql => "UUID"
  | .sqlite => "TEXT"

/-- Integer morph id column type per dialect (schema-builder inline). -/
def morphIntIdType : SqlDialect → String
  | .mysql => "BIGINT UNSIGNED"
  | .postgresql => "BIGINT"
  | .sqlite => "INTEGER"

/-- Models `generatePolymorphicColumns` (schema-builder): MorphTo relations
with a non-empty target list. -/
def generatePolymorphicColumns (name : String) (property : PropertyDefinition)
    (dialect : SqlDialect) (allSchemas : SchemaCollection) : Option (List SqlColumn × SqlIndex) :=
  if property.type != "Association" then none
  else if property.relation != some "MorphTo" || property.targets.isEmpty then none
  else
    let baseName := toColumnName name
    let useUuid := property.targets.any (fun targetName =>
      match scLookup allSchemas targetName with
      | some targetSchema => (targetSchema.options.bind (·.idType)) == some "Uuid"
      | none => false)
    let enumInfo := getEnumType property.targets dialect (some (baseName ++ "_type_enum"))
    let typeColumn : SqlColumn :=
      { name := baseName ++ "_type", type := enumInfo.type, nullable := true, primaryKey := false
        autoIncrement := false, unique := false, unsigned := false }
    let idType := if useUuid then morphUuidIdType dialect else morphIntIdType dialect
    let idColumn : SqlColumn :=
      { name := baseName ++ "_id", type := idType, nullable := true, primaryKey := false
        autoIncrement := false, unique := false, unsigned := dialect == .mysql && !useUuid }
    let index : SqlIndex :=
      { name := "idx_" ++ baseName ++ "_type_id"
        columns := [baseName ++ "_type", baseName ++ "_id"], unique := false }
    some ([typeColumn, idColumn], index)

/-- Models `schemaToTable` (schema-builder): primary key, per-property columns
and derived constraints, timestamps, soft delete, custom indexes, unique
constraints. -/
def schemaToTable (schema : LoadedSchema) (allSchemas : SchemaCollection)
    (options : ResolvedSqlOptions) : SqlTable :=
  let dialect := options.dialect
  let pkColumns : List SqlColumn :=
    if (schema.options.bind (·.id)).getD true then
      [generatePrimaryKey ((schema.options.bind (·.idType)).getD "BigInt") dialect]
    else []
  let step := fun (acc : List SqlColumn × List SqlForeignKey × List SqlIndex)
      (pp : String × PropertyDefinition) =>
    let (cols, fks, idxs) := acc
    match propertyToColumn pp.1 pp.2 dialect allSchemas with
    | some column =>
      let idxs := if column.unique then
          idxs ++ [{ name := "idx_" ++ toTableName schema.name ++ "_" ++ column.name ++ "_unique"
                     columns := [column.name], unique := true }]
        else idxs
      (cols ++ [column], fks, idxs)
    | none =>
      match generateForeignKey pp.1 pp.2 schema dialect allSchemas with
      | some (col, fk) =>
        (cols ++ [col], fks ++ [fk],
          idxs ++ [{ name := "idx_" ++ toTableName schema.name ++ "_" ++ col.name
                     columns := [col.name], unique := false }])
      | none =>
        match generatePolymorphicColumns pp.1 pp.2 dialect allSchemas with
        | some (mcols, midx) => (cols ++ mcols, fks, idxs ++ [midx])
        | none =>
          if pp.2.type == "Coordinates" then
            (cols ++ generateCoordinatesColumns pp.1 pp.2 dialect, fks, idxs)
          else (cols, fks, idxs)
  let acc := schema.properties.foldl step (pkColumns, [], [])
  let columns := acc.1
  let foreignKeys := acc.2.1
  let indexes := acc.2.2
  let columns := columns ++
    (if (schema.options.bind (·.timestamps)).getD true then generateTimestampColumns dialect else [])
  let columns := columns ++
    (if (schema.options.bind (·.softDelete)).getD false then [generateSoftDeleteColumn dialect] else [])
  let indexes := indexes ++
    (match schema.options.bind (·.indexes) with
     | some defs => defs.map (fun indexDef =>
        { name := indexDef.name.getD ("idx_" ++ toTableName schema.name ++ "_"
            ++ joinSep "_" (indexDef.columns.map toColumnName))
          columns := indexDef.columns.map toColumnName
          unique := indexDef.unique.getD false
          type := indexDef.type })
     | none => [])
  let indexes := indexes ++
    (match schema.options.bind (·.unique) with
     | some spec =>
       let uniqueConstraints := match spec with
         | .flat cols => [cols]
         | .nested groups => groups
       uniqueConstraints.map (fun constraint =>
         let constraintColumns := constraint.map toColumnName
         { name := "idx_" ++ toTableName schema.name ++ "_"
             ++ joinSep "_" constraintColumns ++ "_unique"
           columns := constraintColumns, unique := true })
     | none => [])
  { name := toTableName schema.name, columns := columns, foreignKeys := foreignKeys
    indexes := indexes, comment := resolveLocalizedString schema.displayName }

/-- Models `generatePivotTable` (schema-builder): ManyToMany relations. -/
def generatePivotTable (sourceSchema : LoadedSchema) (_propertyName : String)
    (property : PropertyDefinition) (allSchemas : SchemaCollection)
    (options : ResolvedSqlOptions) : Option SqlTable :=
  if property.type != "Association" then none
  else if property.relation != some "ManyToMany" then none
  else
    match optNonempty property.target with
    | none => none
    | some target =>
      match scLookup allSchemas target with
      | none => none
      | some targetSchema =>
        let dialect := options.dialect
        let sourceTable := toTableName sourceSchema.name
        let targetTable := toTableName target
        let sortedTables :=
          if compare sourceTable targetTable == Ordering.gt then (targetTable, sourceTable)
          else (sourceTable, targetTable)
        let pivotName := property.joinTable.getD (sortedTables.1 ++ "_" ++ sortedTables.2)
        let sourceIdType := (sourceSchema.options.bind (·.idType)).getD "BigInt"
        let targetIdType := (targetSchema.options.bind (·.idType)).getD "BigInt"
        let sourceColName := toSnakeCase sourceSchema.name ++ "_id"
        let targetColName := toSnakeCase target ++ "_id"
        some
          { name := pivotName
            columns :=
              [ { name := sourceColName, type := getForeignKeyType sourceIdType dialect
                  nullable := false, primaryKey := false, autoIncrement := false, unique := false
                  unsigned := dialect == .mysql && (sourceIdType == "Int" || sourceIdType == "BigInt") },
                { name := targetColName, type := getForeignKeyType targetIdType dialect
                  nullable := false, primaryKey := false, autoIncrement := false, unique := false
                  unsigned := dialect == .mysql && (targetIdType == "Int" || targetIdType == "BigInt") } ]
            foreignKeys :=
              [ { name := "fk_" ++ pivotName ++ "_" ++ sourceColName, columns := [sourceColName]
                  referencesTable := sourceTable, referencesColumns := ["id"]
                  onDelete := property.onDelete.getD "CASCADE", onUpdate := "CASCADE" },
                { name := "fk_" ++ pivotName ++ "_" ++ targetColName, columns := [targetColName]
                  referencesTable := targetTable, referencesColumns := ["id"]
                  onDelete := property.onDelete.getD "CASCADE", onUpdate := "CASCADE" } ]
            indexes :=
              [ { name := "idx_" ++ pivotName ++ "_unique"
                  columns := [sourceColName, targetColName], unique := true },
                { name := "idx_" ++ pivotName ++ "_" ++ sourceColName
                  columns := [sourceColName], unique := false },
                { name := "idx_" ++ pivotName ++ "_" ++ targetColName
                  columns := [targetColName], unique := false } ] }

/-- Models the scan of `generateMorphPivotTable` that collects every schema
declaring a MorphToMany association to the same target. -/
def morphContributors (sourceSchema : LoadedSchema) (target : String)
    (allSchemas : SchemaCollection) : List String :=
  allSchemas.foldl (fun acc entry =>
    if entry.1 == sourceSchema.name then acc
    else if (entry.2.properties.any (fun pp =>
        pp.2.type == "Association" && pp.2.relation == some "MorphToMany"
          && pp.2.target == some target)) && !acc.contains entry.1 then
      acc ++ [entry.1]
    else acc) [sourceSchema.name]

/-- Models `generateMorphPivotTable` (schema-builder): MorphToMany relations. -/
def generateMorphPivotTable (sourceSchema : LoadedSchema) (_propertyName : String)
    (property : PropertyDefinition) (allSchemas : SchemaCollection)
    (options : ResolvedSqlOptions) : Option SqlTable :=
  if property.type != "Association" then none
  else if property.relation != some "MorphToMany" then none
  else
    match optNonempty property.target with
    | none => none
    | some target =>
      match scLookup allSchemas target with
      | none => none
      | some targetSchema =>
        let dialect := options.dialect
        let morphName := stripTrailingS (toSnakeCase target) ++ "ables"
        let pivotName := property.joinTable.getD morphName
        let targetIdType := (targetSchema.options.bind (·.idType)).getD "BigInt"
        let targetColName := toSnakeCase target ++ "_id"
        let morphTypeName := stripTrailingS morphName ++ "_type"
        let morphIdName := stripTrailingS morphName ++ "_id"
        let morphTargets := morphContributors sourceSchema target allSchemas
        let useUuid := morphTargets.any (fun targetName =>
          match scLookup allSchemas targetName with
          | some s => (s.options.bind (·.idType)) == some "Uuid"
          | none => false)
        let enumInfo := getEnumType morphTargets dialect (some (morphTypeName ++ "_enum"))
        let morphIdType := if useUuid then morphUuidIdType dialect else morphIntIdType dialect
        some
          { name := pivotName
            columns :=
              [ { name := targetColName, type := getForeignKeyType targetIdType dialect
                  nullable := false, primaryKey := false, autoIncrement := false, unique := false
                  unsigned := dialect == .mysql && (targetIdType == "Int" || targetIdType == "BigInt") },
                { name := morphTypeName, type := enumInfo.type, nullable := false
                  primaryKey := false, autoIncrement := false, unique := false, unsigned := false },
                { name := morphIdName, type := morphIdType, nullable := false
                  primaryKey := false, autoIncrement := false, unique := false
                  unsigned := dialect == .mysql && !useUuid } ]
            foreignKeys :=
              [ { name := "fk_" ++ pivotName ++ "_" ++ targetColName, columns := [targetColName]
                  referencesTable := toTableName target, referencesColumns := ["id"]
                  onDelete := property.onDelete.getD "CASCADE", onUpdate := "CASCADE" } ]
            indexes :=
              [ { name := "idx_" ++ pivotName ++ "_unique"
                  columns := [targetColName, morphTypeName, morphIdName], unique := true },
                { name := "idx_" ++ pivotName ++ "_" ++ targetColName
                  columns := [targetColName], unique := false },
                { name := "idx_" ++ pivotName ++ "_morphable"
                  columns := [morphTypeName, morphIdName], unique := false } ] }

/-- Reason string for the Point/SQLite incompatibility (generator). -/
def pointSqliteReason : String :=
  "SQLite does not support native spatial types. Point will be stored as TEXT (JSON), which is incompatible with MySQL/PostgreSQL spatial functions (ST_Distance, ST_Within, etc.). Use Coordinates type for cross-database compatibility."

/-- Entry of the dialect incompatibility tables (generator). -/
structure IncompatInfo where
  dialects : List SqlDialect
  reason : String
  suggestion : Option String := none
deriving DecidableEq, Repr

/-- Models `DIALECT_INCOMPATIBLE_TYPES` (generator). -/
def dialectIncompatibleTypes (t : String) : Option IncompatInfo :=
  if t == "Point" then some { dialects := [.sqlite], reason := pointSqliteReason }
  else none

/-- Models `DIALECT_INCOMPATIBLE_INDEX_TYPES` (generator). -/
def dialectIncompatibleIndexTypes (t : String) : Option IncompatInfo :=
  if t == "gin" then
    some { dialects := [.mysql, .sqlite]
           reason := "GIN (Generalized Inverted Index) is PostgreSQL-specific."
           suggestion := some "For fulltext search, use type: \"fulltext\" instead. For JSONB indexing, this only works in PostgreSQL." }
  else if t == "gist" then
    some { dialects := [.mysql, .sqlite]
           reason := "GiST (Generalized Search Tree) is PostgreSQL-specific."
           suggestion := some "For spatial data, use type: \"spatial\" which works on both MySQL and PostgreSQL." }
  else if t == "fulltext" then
    some { dialects := [.sqlite]
           reason := "SQLite does not support native fulltext indexes. FTS requires virtual tables which are not auto-generated."
           suggestion := some "Consider using a regular index or implementing SQLite FTS manually." }
  else if t == "spatial" then
    some { dialects := [.sqlite]
           reason := "SQLite does not support spatial indexes."
           suggestion := some "Use Coordinates type with regular indexes for cross-database compatibility." }
  else none

/-- Violation messages produced for one (non-enum) schema by
`validateSchemaCompatibility`: property-type violations first, then
index-type violations, in declaration order. -/
def schemaViolationMessages (schemaName : String) (schema : LoadedSchema)
    (dialect : SqlDialect) : List String :=
  let propErrors := schema.properties.filterMap (fun pp =>
    match dialectIncompatibleTypes pp.2.type with
    | some info =>
      if info.dialects.contains dialect then
        some ("Schema \"" ++ schemaName ++ "\", property \"" ++ pp.1 ++ "\": Type \""
          ++ pp.2.type ++ "\" is not supported in " ++ dialectStr dialect ++ ". " ++ info.reason)
      else none
    | none => none)
  let indexErrors :=
    match schema.options.bind (·.indexes) with
    | some defs => defs.filterMap (fun indexDef =>
        match indexDef.type with
        | some ty =>
          (match dialectIncompatibleIndexTypes ty with
           | some info =>
             if info.dialects.contains dialect then
               let indexName := indexDef.name.getD
                 ("index on [" ++ joinSep ", " indexDef.columns ++ "]")
               let message := "Schema \"" ++ schemaName ++ "\", index \"" ++ indexName
                 ++ "\": Index type \"" ++ ty ++ "\" is not supported in "
                 ++ dialectStr dialect ++ ". " ++ info.reason
               some (match info.suggestion with
                     | some sug => message ++ " " ++ sug
                     | none => message)
             else none
           | none => none)
        | none => none)
    | none => []
  propErrors ++ indexErrors

/-- All violation messages collected by `validateSchemaCompatibility`, in
schema iteration order; enum-kind schemas are skipped. -/
def validationErrors (schemas : SchemaCollection) (dialect : SqlDialect) : List String :=
  schemas.flatMap (fun entry =>
    if entry.2.kind == "enum" then []
    else schemaViolationMessages entry.1 entry.2 dialect)

/-- Aggregated error message thrown by `validateSchemaCompatibility`. -/
def renderValidationError (dialect : SqlDialect) (errors : List String) : String :=
  "SQL Generator: Incompatible types detected for dialect \"" ++ dialectStr dialect ++ "\":\n\n"
    ++ joinSep "\n\n" (errors.enum.map (fun ie => toString (ie.1 + 1) ++ ". " ++ ie.2))
    ++ "\n\nTo fix: Either change the type/index or use a compatible dialect."

/-- Models `validateSchemaCompatibility` (generator); the `throw` is modelled
with `Except.error`. -/
def validateSchemaCompatibility (schemas : SchemaCollection) (dialect : SqlDialect) :
    Except String Unit :=
  let errors := validationErrors schemas dialect
  if errors.length > 0 then Except.error (renderValidationError dialect errors)
  else Except.ok ()

/-- Models `formatVersion` (generator). -/
def formatVersion (version : Int) (padding : Nat) : String :=
  padStart (toString version) padding '0'

/-- Models `generateFileName` (generator). -/
def generateFileName (version : Int) (name : String) (padding : Nat) : String :=
  formatVersion version padding ++ "_" ++ name ++ ".sql"

/-- Models `generateCreateTableSql` (generator). -/
def generateCreateTableSql (table : SqlTable) (options : ResolvedSqlOptions) : String :=
  let dialect := options.dialect
  let lines : List String :=
    [ "-- Migration: Create " ++ table.name ++ " table", "-- Generated by @famgia/omnify-sql", "" ]
  let lines := lines ++ [formatCreateTable table dialect options.ifNotExists, ""]
  let indexStatements := formatIndexes table dialect
  let lines := if indexStatements.length > 0 then lines ++ ["-- Indexes"] ++ indexStatements ++ [""] else lines
  let commentStatements := formatColumnComments table dialect
  let lines := if commentStatements.length > 0 then
      lines ++ ["-- Column comments"] ++ commentStatements ++ [""]
    else lines
  let lines := if options.generateDown then
      lines ++ ["-- Down migration", "-- " ++ formatDropTable table.name dialect true true]
    else lines
  joinSep "\n" lines

/-- State of the depth-first topological sort (generator `topologicalSort`):
the output list plus the `visited` and `visiting` sets (modelled as lists). -/
structure TopoState where
  sorted : List LoadedSchema
  visited : List String
  visiting : List String
deriving DecidableEq, Repr

/-- Foreign-key dependency targets of one schema, in declaration order: the
targets of its ManyToOne/OneToOne association properties (JS truthiness of
the target string included). -/
def depTargets (schema : LoadedSchema) : List String :=
  schema.properties.filterMap (fun pp =>
    if pp.2.type == "Association"
        && ((pp.2.relation.getD "") == "ManyToOne" || (pp.2.relation.getD "") == "OneToOne") then
      optNonempty pp.2.target
    else none)

/-- Models the recursive `visit` of `topologicalSort`.  The JS recursion is
bounded by the number of schemas; `fuel` makes it structural, and
`topologicalSort` supplies `schemas.length + 2`, which is never exhausted
(each level of nesting puts one further key of the collection into
`visiting`). -/
def visitSchema (schemas : SchemaCollection) : Nat → String → TopoState → TopoState
  | 0, _, st => st
  | Nat.succ fuel, name, st =>
    if st.visited.contains name then st
    else if st.visiting.contains name then st
    else
      let st1 : TopoState := { st with visiting := name :: st.visiting }
      match scLookup schemas name with
      | none => st1
      | some schema =>
        let st2 := (depTargets schema).foldl (fun s d => visitSchema schemas fuel d s) st1
        { sorted := st2.sorted ++ [schema]
          visited := name :: st2.visited
          visiting := st2.visiting.erase name }

/-- Models `topologicalSort` (generator). -/
def topologicalSort (schemas : SchemaCollection) : List LoadedSchema :=
  ((scKeys schemas).foldl
    (fun st name => visitSchema schemas (schemas.length + 2) name st)
    ⟨[], [], []⟩).sorted

/-- The migration artifact pushed by the generator loops; all three push
sites of the source produce exactly this shape (`create_<table>` name). -/
def createArtifact (version : Int) (table : SqlTable) (resolved : ResolvedSqlOptions)
    (ty : MigrationType) : SqlMigration :=
  { version := version
    name := "create_" ++ table.name
    fileName := generateFileName version ("create_" ++ table.name) resolved.versionPadding
    content := generateCreateTableSql table resolved
    tables := [table.name]
    type := ty }

/-- Emission of one (optional) pivot table, deduplicated against the set of
already created pivot names carried in the state. -/
def maybeEmitPivot (resolved : ResolvedSqlOptions) (pt : Option SqlTable)
    (st : List SqlMigration × Int × List String) : List SqlMigration × Int × List String :=
  match pt with
  | some pivotTable =>
    if st.2.2.contains pivotTable.name then st
    else (st.1 ++ [createArtifact st.2.1 pivotTable resolved .pivot],
          st.2.1 + 1, st.2.2 ++ [pivotTable.name])
  | none => st

/-- One step of the pivot loop of `generateMigrations` for a single property:
ManyToMany pivot first, then MorphToMany pivot, each deduplicated by name. -/
def pivotStep (schemas : SchemaCollection) (resolved : ResolvedSqlOptions)
    (schema : LoadedSchema) (st : List SqlMigration × Int × List String)
    (pp : String × PropertyDefinition) : List SqlMigration × Int × List String :=
  maybeEmitPivot resolved (generateMorphPivotTable schema pp.1 pp.2 schemas resolved)
    (maybeEmitPivot resolved (generatePivotTable schema pp.1 pp.2 schemas resolved) st)

/-- The body of `generateMigrations` after successful validation: filter enums,
sort, one `create` artifact per schema, then deduplicated pivot artifacts. -/
def generateMigrationsCore (schemas : SchemaCollection) (resolved : ResolvedSqlOptions) :
    List SqlMigration :=
  let objectSchemas := schemas.filter (fun entry => entry.2.kind != "enum")
  let sortedSchemas := topologicalSort objectSchemas
  let createState := sortedSchemas.foldl
    (fun (st : List SqlMigration × Int) schema =>
      let table := schemaToTable schema schemas resolved
      (st.1 ++ [createArtifact st.2 table resolved .create], st.2 + 1))
    ([], resolved.startVersion)
  let finalState := sortedSchemas.foldl
    (fun (st : List SqlMigration × Int × List String) schema =>
      schema.properties.foldl (pivotStep schemas resolved schema) st)
    (createState.1, createState.2, [])
  finalState.1

/-- Models `generateMigrations` (generator): validate, then generate. -/
def generateMigrations (schemas : SchemaCollection) (options : SqlGeneratorOptions) :
    Except String (List SqlMigration) :=
  let resolved := resolveOptions options
  match validateSchemaCompatibility schemas resolved.dialect with
  | .error e => .error e
  | .ok _ => .ok (generateMigrationsCore schemas resolved)

/-- Models `generateMigrationFromSchema` (generator). -/
def generateMigrationFromSchema (schema : LoadedSchema) (allSchemas : SchemaCollection)
    (options : SqlGeneratorOptions) : SqlMigration :=
  let resolved := resolveOptions options
  let version := options.version.getD resolved.startVersion
  let table := schemaToTable schema allSchemas resolved
  createArtifact version table resolved .create

/-- Models `generateDropMigration` (generator): inputs that look like table
names (contain an underscore or end in `s`/`es`) are used verbatim; other
inputs are treated as schema names and converted with `toTableName`. -/
def generateDropMigration (tableName : String) (options : SqlGeneratorOptions) : SqlMigration :=
  let resolved := resolveOptions options
  let version := options.version.getD resolved.startVersion
  let isTableName := strContains tableName "_" || strEndsWith tableName "s" || strEndsWith tableName "es"
  let snakeTable := if isTableName then tableName else toTableName tableName
  let dropSql := formatDropTable snakeTable resolved.dialect true true
  let content := joinSep "\n"
    [ "-- Migration: Drop " ++ snakeTable ++ " table", "-- Generated by @famgia/omnify-sql", ""
      , dropSql ]
  { version := version
    name := "drop_" ++ snakeTable
    fileName := generateFileName version ("drop_" ++ snakeTable) resolved.versionPadding
    content := content
    tables := [snakeTable]
    type := .drop }

/-- Models `getMigrationPath` (generator). -/
def getMigrationPath (migration : SqlMigration) (basePath : String := "migrations") : String :=
  basePath ++ "/" ++ migration.fileName


/-- Characterization of the single-character substring test. -/
theorem listInfix_singleton (c : Char) (l : List Char) : listInfix [c] l = l.contains c := by
  induction l with
  | nil => rfl
  | cons x t ih =>
    simp only [listInfix, List.isPrefixOf, List.contains_cons, Bool.and_true, ih]

/-- Substring test with a single-character pattern is list membership. -/
theorem strContains_singleton (s : String) (c : Char) :
    strContains s c.toString = true ↔ c ∈ s.data := by
  have h : (c.toString).data = [c] := rfl
  rw [strContains, h, listInfix_singleton]
  exact List.elem_iff

/-- C9: For every MorphTo association property with a non-empty target list,
both generated columns are nullable regardless of the declared nullability. -/
theorem morphTo_columns_always_nullable
    (name : String) (property : PropertyDefinition) (dialect : SqlDialect)
    (allSchemas : SchemaCollection)
    (hT : property.type = "Association")
    (hR : property.relation = some "MorphTo")
    (hTs : property.targets ≠ []) :
    (generatePolymorphicColumns name property dialect allSchemas).map
        (fun r => (r.1.map SqlColumn.nullable, r.1.map SqlColumn.name))
      = some ([true, true], [toColumnName name ++ "_type", toColumnName name ++ "_id"]) := by
  have hEmpty : property.targets.isEmpty = false := by
    cases h : property.targets with
    | nil => exact absurd h hTs
    | cons a t => rfl
  unfold generatePolymorphicColumns
  rw [hT, hR]
  simp [hEmpty]

def morphToWitnessProp : PropertyDefinition :=
  { type := "Association", relation := some "MorphTo", targets := ["Post", "Video"] }

theorem morphTo_columns_always_nullable_witness :
    (generatePolymorphicColumns "commentable" morphToWitnessProp SqlDialect.mysql []).map
        (fun r => (r.1.map SqlColumn.nullable, r.1.map SqlColumn.name))
      = some ([true, true], ["commentable_type", "commentable_id"]) :=
  morphTo_columns_always_nullable "commentable" morphToWitnessProp SqlDialect.mysql []
    rfl rfl (by simp [morphToWitnessProp])

/-- C10: drop migrations use the input verbatim when it contains an underscore
or ends in s/es, and pluralize+snake_case it otherwise. -/
theorem drop_migration_table_name (tableName : String) (options : SqlGeneratorOptions) :
    ((('_' ∈ tableName.data) ∨ strEndsWith tableName "s" = true ∨ strEndsWith tableName "es" = true) →
      (generateDropMigration tableName options).tables = [tableName]
        ∧ (generateDropMigration tableName options).name = "drop_" ++ tableName)
    ∧ ((¬ ('_' ∈ tableName.data) ∧ strEndsWith tableName "s" = false ∧ strEndsWith tableName "es" = false) →
      (generateDropMigration tableName options).tables = [toTableName tableName]
        ∧ (generateDropMigration tableName options).name = "drop_" ++ toTableName tableName) := by
  have hu : strContains tableName "_" = true ↔ '_' ∈ tableName.data := strContains_singleton tableName '_'
  constructor
  · intro h
    have hb : (strContains tableName "_" || strEndsWith tableName "s" || strEndsWith tableName "es") = true := by
      rcases h with h | h | h
      · simp [hu.mpr h]
      · simp [h]
      · simp [h]
    unfold generateDropMigration
    simp [hb]
  · rintro ⟨h1, h2, h3⟩
    have hc : strContains tableName "_" = false := by
      cases hcc : strContains tableName "_" with
      | false => rfl
      | true => exact absurd (hu.mp hcc) h1
    have hb : (strContains tableName "_" || strEndsWith tableName "s" || strEndsWith tableName "es") = false := by
      simp [hc, h2, h3]
    unfold generateDropMigration
    simp [hb]

theorem drop_migration_table_name_witness :
    (('_' ∈ "Bus".data) ∨ strEndsWith "Bus" "s" = true ∨ strEndsWith "Bus" "es" = true)
    ∧ (generateDropMigration "Bus" {}).tables = ["Bus"]
    ∧ (generateDropMigration "Bus" {}).name = "drop_Bus"
    ∧ (¬ ('_' ∈ "User".data) ∧ strEndsWith "User" "s" = false ∧ strEndsWith "User" "es" = false)
    ∧ (generateDropMigration "User" {}).tables = ["users"]
    ∧ (generateDropMigration "User" {}).name = "drop_users" := by
  have hBus := (drop_migration_table_name "Bus" {}).1 (Or.inr (Or.inl (by rfl)))
  have hUser := (drop_migration_table_name "User" {}).2 (by refine ⟨?_, rfl, rfl⟩; decide)
  exact ⟨Or.inr (Or.inl rfl), hBus.1, hBus.2, ⟨by decide, rfl, rfl⟩, hUser.1, hUser.2⟩

/-- Witness input: a Point property under the SQLite dialect (fails validation). -/
def storePointSchemas : SchemaCollection :=
  [("Store", { name := "Store", kind := "object"
               properties := [("location", { type := "Point" })] })]

def sqliteOpts : SqlGeneratorOptions := { dialect := some SqlDialect.sqlite }

/-- C8: the generator is a pure function of its inputs, and on validation
failure it propagates the error with no partial artifact list. -/
theorem generateMigrations_deterministic (s1 s2 : SchemaCollection)
    (o1 o2 : SqlGeneratorOptions) (hs : s1 = s2) (ho : o1 = o2) :
    generateMigrations s1 o1 = generateMigrations s2 o2
    ∧ ∀ e, validateSchemaCompatibility s1 (resolveOptions o1).dialect = Except.error e →
        generateMigrations s1 o1 = Except.error e := by
  subst hs; subst ho
  refine ⟨rfl, fun e he => ?_⟩
  simp only [generateMigrations, he]

theorem generateMigrations_deterministic_witness :
    generateMigrations storePointSchemas sqliteOpts = generateMigrations storePointSchemas sqliteOpts
    ∧ generateMigrations storePointSchemas sqliteOpts
        = Except.error (renderValidationError SqlDialect.sqlite
            (validationErrors storePointSchemas SqlDialect.sqlite)) :=
  ⟨(generateMigrations_deterministic storePointSchemas storePointSchemas sqliteOpts sqliteOpts rfl rfl).1,
   (generateMigrations_deterministic storePointSchemas storePointSchemas sqliteOpts sqliteOpts rfl rfl).2 _ rfl⟩

/-- Witness input: one entity with an explicit-value Enum property. -/
def enumTestSchema : LoadedSchema :=
  { name := "Test", kind := "object"
    properties := [("status", { type := "Enum", enum := some (.values ["draft", "published", "archived"]) })]
    options := some { timestamps := some false } }

def enumTestSchemas : SchemaCollection := [("Test", enumTestSchema)]

def pgOpts : SqlGeneratorOptions := { dialect := some SqlDialect.postgresql }

/-- C5 (code bug): under PostgreSQL the Enum column is declared with the
synthetic type name `status_enum`, and `getEnumType` does construct the
required `CREATE TYPE ... AS ENUM` pre-statement, but the generated
migration SQL never contains it: the pre-statement is dropped on the floor. -/
theorem pg_enum_pre_statement_missing :
    ∃ migs, generateMigrations enumTestSchemas pgOpts = Except.ok migs
      ∧ migs.map (fun m => strContains m.content "CREATE TYPE") = [false]
      ∧ migs.map (fun m => strContains m.content "status_enum") = [true]
      ∧ (schemaToTable enumTestSchema enumTestSchemas (resolveOptions pgOpts)).columns.map SqlColumn.type
          = ["BIGSERIAL", "status_enum"]
      ∧ (getEnumType ["draft", "published", "archived"] SqlDialect.postgresql (some "status_enum")).preStatement
          = some ("CREATE TYPE status_enum AS ENUM (" ++ sqStr ++ "draft" ++ sqStr ++ ", "
              ++ sqStr ++ "published" ++ sqStr ++ ", " ++ sqStr ++ "archived" ++ sqStr ++ ");") :=
  ⟨_, rfl, rfl, rfl, rfl, rfl⟩

/-- Witness input: entity `User` with a single String property `name`. -/
def userNameSchema : LoadedSchema :=
  { name := "User", kind := "object", properties := [("name", { type := "String" })] }

def userNameSchemas : SchemaCollection := [("User", userNameSchema)]

def mysqlOpts : SqlGeneratorOptions := { dialect := some SqlDialect.mysql }

/-- C6 counterexample: the generated MySQL CREATE TABLE text does NOT contain
the claimed id line with `NOT NULL`; primary-key columns omit the null clause. -/
theorem mysql_user_id_line_counterexample :
    ∃ migs, generateMigrations userNameSchemas mysqlOpts = Except.ok migs
      ∧ migs.map (fun m =>
          strContains m.content "`id` BIGINT UNSIGNED NOT NULL AUTO_INCREMENT PRIMARY KEY") = [false] :=
  ⟨_, rfl, rfl⟩

/-- C6 (amended): the id line omits the null clause (`PRIMARY KEY` implies it);
all other claimed lines appear and the CREATE TABLE statement ends with the
MySQL engine/charset suffix. -/
theorem mysql_user_create_table_lines :
    ∃ migs, generateMigrations userNameSchemas mysqlOpts = Except.ok migs
      ∧ migs.map (fun m => strContains m.content "`id` BIGINT UNSIGNED AUTO_INCREMENT PRIMARY KEY") = [true]
      ∧ migs.map (fun m => strContains m.content "`name` VARCHAR(255) NOT NULL") = [true]
      ∧ migs.map (fun m => strContains m.content "`created_at` TIMESTAMP NULL") = [true]
      ∧ migs.map (fun m => strContains m.content "`updated_at` TIMESTAMP NULL") = [true]
      ∧ strEndsWith
          (formatCreateTable (schemaToTable userNameSchema userNameSchemas (resolveOptions mysqlOpts))
            SqlDialect.mysql true)
          "ENGINE=InnoDB DEFAULT CHARSET=utf8mb4 COLLATE=utf8mb4_unicode_ci;" = true
      ∧ migs.map (fun m =>
          strContains m.content "ENGINE=InnoDB DEFAULT CHARSET=utf8mb4 COLLATE=utf8mb4_unicode_ci;") = [true] :=
  ⟨_, rfl, rfl, rfl, rfl, rfl, rfl, rfl⟩

/-- Witness input: User declares ManyToMany roles to Role. -/
def userRoleSchemasA : SchemaCollection :=
  [("User", { name := "User", kind := "object"
              properties := [("roles", { type := "Association", relation := some "ManyToMany", target := some "Role" })] }),
   ("Role", { name := "Role", kind := "object"
              properties := [("name", { type := "String" })] })]

/-- Witness input: Role declares ManyToMany users to User. -/
def userRoleSchemasB : SchemaCollection :=
  [("User", { name := "User", kind := "object"
              properties := [("name", { type := "String" })] }),
   ("Role", { name := "Role", kind := "object"
              properties := [("users", { type := "Association", relation := some "ManyToMany", target := some "User" })] })]

/-- Witness input: both sides declare the ManyToMany relation. -/
def userRoleSchemasC : SchemaCollection :=
  [("User", { name := "User", kind := "object"
              properties := [("roles", { type := "Association", relation := some "ManyToMany", target := some "Role" })] }),
   ("Role", { name := "Role", kind := "object"
              properties := [("users", { type := "Association", relation := some "ManyToMany", target := some "User" })] })]

def userRolesPivProp : PropertyDefinition :=
  { type := "Association", relation := some "ManyToMany", target := some "Role" }

def roleUsersPivProp : PropertyDefinition :=
  { type := "Association", relation := some "ManyToMany", target := some "User" }

/-- C4: a User/Role ManyToMany relation, declared on either or both sides,
yields exactly one pivot artifact named roles_users with two non-null FK
columns, two FK constraints, two single-column plain indexes and one
composite unique index. -/
theorem many_to_many_pivot_roles_users :
    (∃ migs, generateMigrations userRoleSchemasA mysqlOpts = Except.ok migs
      ∧ (migs.filter (fun m => m.type == MigrationType.pivot)).map SqlMigration.tables = [["roles_users"]]
      ∧ migs.length = 3)
    ∧ (∃ migs, generateMigrations userRoleSchemasB mysqlOpts = Except.ok migs
      ∧ (migs.filter (fun m => m.type == MigrationType.pivot)).map SqlMigration.tables = [["roles_users"]]
      ∧ migs.length = 3)
    ∧ (∃ migs, generateMigrations userRoleSchemasC mysqlOpts = Except.ok migs
      ∧ (migs.filter (fun m => m.type == MigrationType.pivot)).map SqlMigration.tables = [["roles_users"]]
      ∧ migs.length = 3)
    ∧ (∃ t, generatePivotTable { name := "User", kind := "object" } "roles" userRolesPivProp
          userRoleSchemasA (resolveOptions mysqlOpts) = some t
      ∧ t.name = "roles_users"
      ∧ t.columns.map (fun c => (c.name, c.nullable)) = [("user_id", false), ("role_id", false)]
      ∧ t.foreignKeys.map (fun fk => (fk.columns, fk.referencesTable)) = [(["user_id"], "users"), (["role_id"], "roles")]
      ∧ (t.indexes.filter (fun ix => ix.unique)).map SqlIndex.columns = [["user_id", "role_id"]]
      ∧ (t.indexes.filter (fun ix => !ix.unique)).map SqlIndex.columns = [["user_id"], ["role_id"]])
    ∧ (∃ t, generatePivotTable { name := "Role", kind := "object" } "users" roleUsersPivProp
          userRoleSchemasB (resolveOptions mysqlOpts) = some t
      ∧ t.name = "roles_users"
      ∧ t.columns.map (fun c => (c.name, c.nullable)) = [("role_id", false), ("user_id", false)]
      ∧ t.foreignKeys.map (fun fk => (fk.columns, fk.referencesTable)) = [(["role_id"], "roles"), (["user_id"], "users")]
      ∧ (t.indexes.filter (fun ix => ix.unique)).map SqlIndex.columns = [["role_id", "user_id"]]
      ∧ (t.indexes.filter (fun ix => !ix.unique)).map SqlIndex.columns = [["role_id"], ["user_id"]]) :=
  ⟨⟨_, rfl, rfl, rfl⟩, ⟨_, rfl, rfl, rfl⟩, ⟨_, rfl, rfl, rfl⟩,
   ⟨_, rfl, rfl, rfl, rfl, rfl, rfl⟩, ⟨_, rfl, rfl, rfl, rfl, rfl, rfl⟩⟩

/-- The Boolean substring test agrees with `List.IsInfix` on the data. -/
theorem listInfix_iff (pat l : List Char) : listInfix pat l = true ↔ pat <:+: l := by
  induction l with
  | nil =>
    simp [listInfix, List.isEmpty_iff, List.infix_nil]
  | cons c t ih =>
    simp [listInfix, List.isPrefixOf_iff_prefix, ih, List.infix_cons_iff]

/-- A string is a substring of any string built around it by concatenation. -/
theorem strContains_append (l mid r : String) :
    strContains (l ++ mid ++ r) mid = true := by
  rw [strContains, listInfix_iff, String.data_append, String.data_append]
  exact List.infix_append l.data mid.data r.data

/-- Substring containment extends through further concatenation on both sides. -/
theorem strContains_extend (l r s pat : String) (h : strContains s pat = true) :
    strContains (l ++ s ++ r) pat = true := by
  rw [strContains, listInfix_iff] at h ⊢
  rw [String.data_append, String.data_append]
  rcases h with ⟨t, u, hh⟩
  exact ⟨l.data ++ t, u ++ r.data, by rw [← hh]; simp⟩

/-- Every member of a joined list is a substring of the join. -/
theorem strContains_joinSep (sep : String) (xs : List String) (x : String) (hx : x ∈ xs) :
    strContains (joinSep sep xs) x = true := by
  induction xs with
  | nil => cases hx
  | cons y rest ih =>
    cases rest with
    | nil =>
      rcases List.mem_singleton.mp hx with rfl
      have : joinSep sep [x] = "" ++ x ++ "" := by simp [joinSep]
      rw [this]
      exact strContains_append "" x ""
    | cons z rest' =>
      rcases List.mem_cons.mp hx with rfl | hmem
      · show strContains (x ++ sep ++ joinSep sep (z :: rest')) x = true
        have : x ++ sep ++ joinSep sep (z :: rest') = "" ++ x ++ (sep ++ joinSep sep (z :: rest')) := by
          simp [String.append_assoc]
        rw [this]
        exact strContains_append "" x _
      · have h := ih hmem
        show strContains (y ++ sep ++ joinSep sep (z :: rest')) x = true
        have : y ++ sep ++ joinSep sep (z :: rest') = (y ++ sep) ++ joinSep sep (z :: rest') ++ "" := by
          simp [String.append_assoc]
        rw [this]
        exact strContains_extend _ _ _ _ h

/-- Members of a list appear (with their number prefix) inside the rendered
aggregated validation error message. -/
theorem strContains_renderValidationError (d : SqlDialect) (errors : List String)
    (e : String) (he : e ∈ errors) :
    strContains (renderValidationError d errors) e = true := by
  have hx : ∃ x ∈ (errors.enum.map (fun ie => toString (ie.1 + 1) ++ ". " ++ ie.2)), ∃ pre, x = pre ++ e := by
    have main : ∀ (l : List String) (n : Nat), e ∈ l →
        ∃ x ∈ ((l.enumFrom n).map (fun ie => toString (ie.1 + 1) ++ ". " ++ ie.2)), ∃ pre, x = pre ++ e := by
      intro l
      induction l with
      | nil => intro n h; cases h
      | cons y rest ih =>
        intro n h
        rcases List.mem_cons.mp h with rfl | hmem
        · exact ⟨toString (n + 1) ++ ". " ++ e, by simp [List.enumFrom],
            ⟨toString (n + 1) ++ ". ", by simp [String.append_assoc]⟩⟩
        · rcases ih (n + 1) hmem with ⟨x, hx1, pre, hx2⟩
          exact ⟨x, by simp [List.enumFrom]; right; simpa using hx1, pre, hx2⟩
    simpa [List.enum] using main errors 0 he
  rcases hx with ⟨x, hxmem, pre, rfl⟩
  unfold renderValidationError
  have h1 : strContains (joinSep "\n\n" (errors.enum.map (fun ie => toString (ie.1 + 1) ++ ". " ++ ie.2))) (pre ++ e) = true :=
    strContains_joinSep _ _ _ hxmem
  have h2 : strContains (joinSep "\n\n" (errors.enum.map (fun ie => toString (ie.1 + 1) ++ ". " ++ ie.2))) e = true := by
    rw [strContains, listInfix_iff] at h1 ⊢
    rcases h1 with ⟨t, u, hh⟩
    exact ⟨t ++ pre.data, u, by rw [← hh]; simp [String.data_append]⟩
  have := strContains_extend
    ("SQL Generator: Incompatible types detected for dialect \"" ++ dialectStr d ++ "\":\n\n")
    "\n\nTo fix: Either change the type/index or use a compatible dialect." _ e h2
  simpa [String.append_assoc] using this

/-- Spec-side characterization of a dialect incompatibility: Point on SQLite,
gin/gist outside PostgreSQL, fulltext/spatial on SQLite, in a non-enum schema. -/
def HasViolation (schemas : SchemaCollection) (dialect : SqlDialect) : Prop :=
  ∃ p ∈ schemas, (p : String × LoadedSchema).2.kind ≠ "enum" ∧
    ((∃ q ∈ p.2.properties, (q : String × PropertyDefinition).2.type = "Point" ∧ dialect = .sqlite)
     ∨ (∃ defs, p.2.options.bind SchemaOptions.indexes = some defs ∧
         ∃ ix ∈ defs,
           ((((ix : IndexDefinition).type = some "gin" ∨ ix.type = some "gist") ∧ dialect ≠ .postgresql)
            ∨ ((ix.type = some "fulltext" ∨ ix.type = some "spatial") ∧ dialect = .sqlite))))

theorem flatMap_ne_nil_iff {α β : Type _} (f : α → List β) (l : List α) :
    l.flatMap f ≠ [] ↔ ∃ x ∈ l, f x ≠ [] := by
  induction l with
  | nil => simp
  | cons y rest ih =>
    simp only [List.flatMap_cons, ne_eq, List.append_eq_nil, not_and_or, List.mem_cons]
    constructor
    · rintro (h | h)
      · exact ⟨y, Or.inl rfl, h⟩
      · rcases ih.mp h with ⟨x, hx, hfx⟩
        exact ⟨x, Or.inr hx, hfx⟩
    · rintro ⟨x, rfl | hx, hfx⟩
      · exact Or.inl hfx
      · exact Or.inr (ih.mpr ⟨x, hx, hfx⟩)

theorem propMessage_ne_none_iff (n : String) (d : SqlDialect) (q : String × PropertyDefinition) :
    (match dialectIncompatibleTypes q.2.type with
     | some info =>
       if info.dialects.contains d then
         some ("Schema \"" ++ n ++ "\", property \"" ++ q.1 ++ "\": Type \""
           ++ q.2.type ++ "\" is not supported in " ++ dialectStr d ++ ". " ++ info.reason)
       else none
     | none => none) ≠ none ↔ (q.2.type = "Point" ∧ d = SqlDialect.sqlite) := by
  by_cases hP : q.2.type = "Point"
  · rw [hP]
    have : dialectIncompatibleTypes "Point" = some { dialects := [.sqlite], reason := pointSqliteReason } := rfl
    rw [this]
    cases d <;> simp [List.contains]
  · have hne : (q.2.type == "Point") = false := by
      exact beq_eq_false_iff_ne.mpr hP
    have : dialectIncompatibleTypes q.2.type = none := by
      unfold dialectIncompatibleTypes
      simp [hne]
    rw [this]
    simp [hP]

theorem indexMessage_ne_none_iff (n : String) (d : SqlDialect) (ix : IndexDefinition) :
    (match ix.type with
     | some ty =>
       (match dialectIncompatibleIndexTypes ty with
        | some info =>
          if info.dialects.contains d then
            let indexName := ix.name.getD ("index on [" ++ joinSep ", " ix.columns ++ "]")
            let message := "Schema \"" ++ n ++ "\", index \"" ++ indexName
              ++ "\": Index type \"" ++ ty ++ "\" is not supported in "
              ++ dialectStr d ++ ". " ++ info.reason
            some (match info.suggestion with
                  | some sug => message ++ " " ++ sug
                  | none => message)
          else none
        | none => none)
     | none => none) ≠ none ↔
      (((ix.type = some "gin" ∨ ix.type = some "gist") ∧ d ≠ SqlDialect.postgresql)
       ∨ ((ix.type = some "fulltext" ∨ ix.type = some "spatial") ∧ d = SqlDialect.sqlite)) := by
  cases hty : ix.type with
  | none => simp
  | some ty =>
    simp only [Option.some.injEq]
    by_cases h1 : ty = "gin"
    · subst h1
      have : dialectIncompatibleIndexTypes "gin" = some
          { dialects := [.mysql, .sqlite]
            reason := "GIN (Generalized Inverted Index) is PostgreSQL-specific."
            suggestion := some "For fulltext search, use type: \"fulltext\" instead. For JSONB indexing, this only works in PostgreSQL." } := rfl
      rw [this]
      cases d <;> simp [List.contains]
    · by_cases h2 : ty = "gist"
      · subst h2
        have : dialectIncompatibleIndexTypes "gist" = some
            { dialects := [.mysql, .sqlite]
              reason := "GiST (Generalized Search Tree) is PostgreSQL-specific."
              suggestion := some "For spatial data, use type: \"spatial\" which works on both MySQL and PostgreSQL." } := rfl
        rw [this]
        cases d <;> simp [List.contains]
      · by_cases h3 : ty = "fulltext"
        · subst h3
          have : dialectIncompatibleIndexTypes "fulltext" = some
              { dialects := [.sqlite]
                reason := "SQLite does not support native fulltext indexes. FTS requires virtual tables which are not auto-generated."
                suggestion := some "Consider using a regular index or implementing SQLite FTS manually." } := rfl
          rw [this]
          cases d <;> simp [List.contains]
        · by_cases h4 : ty = "spatial"
          · subst h4
            have : dialectIncompatibleIndexTypes "spatial" = some
                { dialects := [.sqlite]
                  reason := "SQLite does not support spatial indexes."
                  suggestion := some "Use Coordinates type with regular indexes for cross-database compatibility." } := rfl
            rw [this]
            cases d <;> simp [List.contains]
          · have : dialectIncompatibleIndexTypes ty = none := by
              unfold dialectIncompatibleIndexTypes
              simp [beq_eq_false_iff_ne.mpr h1, beq_eq_false_iff_ne.mpr h2,
                beq_eq_false_iff_ne.mpr h3, beq_eq_false_iff_ne.mpr h4]
            rw [this]
            simp [h1, h2, h3, h4]

theorem schemaViolationMessages_ne_nil_iff (n : String) (s : LoadedSchema) (d : SqlDialect) :
    schemaViolationMessages n s d ≠ [] ↔
      ((∃ q ∈ s.properties, (q : String × PropertyDefinition).2.type = "Point" ∧ d = SqlDialect.sqlite)
       ∨ (∃ defs, s.options.bind SchemaOptions.indexes = some defs ∧
           ∃ ix ∈ defs,
             ((((ix : IndexDefinition).type = some "gin" ∨ ix.type = some "gist") ∧ d ≠ SqlDialect.postgresql)
              ∨ ((ix.type = some "fulltext" ∨ ix.type = some "spatial") ∧ d = SqlDialect.sqlite)))) := by
  unfold schemaViolationMessages
  rw [ne_eq, List.append_eq_nil, not_and_or]
  constructor
  · rintro (h | h)
    · left
      rw [List.filterMap_eq_nil_iff] at h
      push_neg at h
      rcases h with ⟨q, hq, hne⟩
      exact ⟨q, hq, (propMessage_ne_none_iff n d q).mp hne⟩
    · right
      cases hidx : s.options.bind SchemaOptions.indexes with
      | none => rw [hidx] at h; simp at h
      | some defs =>
        rw [hidx] at h
        simp only [List.filterMap_eq_nil_iff] at h
        push_neg at h
        rcases h with ⟨ix, hix, hne⟩
        exact ⟨defs, rfl, ix, hix, (indexMessage_ne_none_iff n d ix).mp hne⟩
  · rintro (⟨q, hq, hcond⟩ | ⟨defs, hdefs, ix, hix, hcond⟩)
    · left
      rw [List.filterMap_eq_nil_iff]
      push_neg
      exact ⟨q, hq, (propMessage_ne_none_iff n d q).mpr hcond⟩
    · right
      rw [hdefs]
      simp only [List.filterMap_eq_nil_iff]
      push_neg
      exact ⟨ix, hix, (indexMessage_ne_none_iff n d ix).mpr hcond⟩

theorem validationErrors_ne_nil_iff (schemas : SchemaCollection) (d : SqlDialect) :
    validationErrors schemas d ≠ [] ↔ HasViolation schemas d := by
  unfold validationErrors HasViolation
  rw [flatMap_ne_nil_iff]
  refine exists_congr (fun p => ?_)
  constructor
  · rintro ⟨hp, hne⟩
    by_cases hk : p.2.kind = "enum"
    · rw [if_pos (beq_iff_eq.mpr hk)] at hne
      exact absurd rfl hne
    · rw [if_neg (by simpa using hk)] at hne
      exact ⟨hp, hk, (schemaViolationMessages_ne_nil_iff p.1 p.2 d).mp hne⟩
  · rintro ⟨hp, hk, hcond⟩
    refine ⟨hp, ?_⟩
    rw [if_neg (by simpa using hk)]
    exact (schemaViolationMessages_ne_nil_iff p.1 p.2 d).mpr hcond

/-- C2: a dialect incompatibility anywhere in the collection makes
generateMigrations fail with the single aggregated error message, which
contains every collected violation (not only the first); the error result
carries no artifacts (the Except.error branch is taken before any table is
built); with no violation the run returns an artifact list normally. -/
theorem validation_aggregates_all_violations (schemas : SchemaCollection)
    (options : SqlGeneratorOptions) :
    (validationErrors schemas (resolveOptions options).dialect ≠ [] →
      generateMigrations schemas options
        = Except.error (renderValidationError (resolveOptions options).dialect
            (validationErrors schemas (resolveOptions options).dialect))
      ∧ ∀ e ∈ validationErrors schemas (resolveOptions options).dialect,
          strContains (renderValidationError (resolveOptions options).dialect
            (validationErrors schemas (resolveOptions options).dialect)) e = true)
    ∧ (validationErrors schemas (resolveOptions options).dialect = [] →
      ∃ migs, generateMigrations schemas options = Except.ok migs)
    ∧ (validationErrors schemas (resolveOptions options).dialect ≠ []
        ↔ HasViolation schemas (resolveOptions options).dialect) := by
  refine ⟨fun hne => ⟨?_, fun e he => strContains_renderValidationError _ _ e he⟩,
    fun hnil => ?_, validationErrors_ne_nil_iff schemas _⟩
  · have hval : validateSchemaCompatibility schemas (resolveOptions options).dialect
        = Except.error (renderValidationError (resolveOptions options).dialect
            (validationErrors schemas (resolveOptions options).dialect)) := by
      unfold validateSchemaCompatibility
      rw [if_pos (by simpa [List.length_pos] using hne)]
    simp only [generateMigrations, hval]
  · have hval : validateSchemaCompatibility schemas (resolveOptions options).dialect
        = Except.ok () := by
      unfold validateSchemaCompatibility
      rw [if_neg (by simp [hnil])]
    cases hres : generateMigrations schemas options with
    | ok migs => exact ⟨migs, rfl⟩
    | error e =>
      simp only [generateMigrations, hval] at hres
      exact absurd hres (by simp)

/-- Witness input: two violations at once (Point on SQLite and a gin index
outside PostgreSQL) aggregated into one message. -/
def twoViolationSchemas : SchemaCollection :=
  [("Store", { name := "Store", kind := "object"
               properties := [("location", { type := "Point" })]
               options := some { indexes := some [{ name := some "store_gin", columns := ["data"], type := some "gin" }] } })]

theorem validation_aggregates_all_violations_witness :
    (validationErrors twoViolationSchemas SqlDialect.sqlite).length = 2
    ∧ generateMigrations twoViolationSchemas sqliteOpts
        = Except.error (renderValidationError SqlDialect.sqlite
            (validationErrors twoViolationSchemas SqlDialect.sqlite))
    ∧ (∀ e ∈ validationErrors twoViolationSchemas SqlDialect.sqlite,
        strContains (renderValidationError SqlDialect.sqlite
          (validationErrors twoViolationSchemas SqlDialect.sqlite)) e = true)
    ∧ HasViolation twoViolationSchemas SqlDialect.sqlite
    ∧ (validationErrors userNameSchemas SqlDialect.mysql = []
        ∧ ∃ migs, generateMigrations userNameSchemas mysqlOpts = Except.ok migs) := by
  have h := validation_aggregates_all_violations twoViolationSchemas sqliteOpts
  have hne : validationErrors twoViolationSchemas SqlDialect.sqlite ≠ [] := by decide
  have h2 := validation_aggregates_all_violations userNameSchemas mysqlOpts
  exact ⟨rfl, (h.1 hne).1, (h.1 hne).2, h.2.2.mp hne, rfl, h2.2.1 rfl⟩

/-- Version/fileName well-formedness of an artifact list: the i-th artifact
carries version start + i, and its file name is the zero-padded version,
an underscore, the artifact's short name and the `.sql` extension. -/
def versionsOk (start : Int) (padding : Nat) (migs : List SqlMigration) : Prop :=
  ∀ i (h : i < migs.length),
    migs[i].version = start + i
    ∧ migs[i].fileName = padStart (toString migs[i].version) padding '0' ++ "_" ++ migs[i].name ++ ".sql"

theorem foldlPreserves {α σ : Type _} (P : σ → Prop) (f : σ → α → σ) (l : List α) (s : σ)
    (hstep : ∀ s a, P s → P (f s a)) (hs : P s) : P (l.foldl f s) := by
  induction l generalizing s with
  | nil => exact hs
  | cons a t ih => exact ih _ (hstep _ _ hs)

theorem versionsOk_push (start : Int) (resolved : ResolvedSqlOptions)
    (acc : List SqlMigration) (v : Int) (table : SqlTable) (ty : MigrationType)
    (h1 : v = start + acc.length) (h2 : versionsOk start resolved.versionPadding acc) :
    v + 1 = start + ((acc ++ [createArtifact v table resolved ty]).length : Nat)
    ∧ versionsOk start resolved.versionPadding (acc ++ [createArtifact v table resolved ty]) := by
  constructor
  · rw [List.length_append, List.length_singleton]
    push_cast
    omega
  · intro i h
    rw [List.length_append, List.length_singleton] at h
    by_cases hi : i < acc.length
    · rw [List.getElem_append_left hi]
      exact h2 i hi
    · have hieq : i = acc.length := by omega
      subst hieq
      rw [List.getElem_concat_length acc _ acc.length rfl (by simp)]
      exact ⟨h1, rfl⟩

theorem maybeEmitPivot_preserves (resolved : ResolvedSqlOptions) (start : Int)
    (pt : Option SqlTable) (st : List SqlMigration × Int × List String)
    (hQ : st.2.1 = start + st.1.length ∧ versionsOk start resolved.versionPadding st.1) :
    (maybeEmitPivot resolved pt st).2.1 = start + (maybeEmitPivot resolved pt st).1.length
    ∧ versionsOk start resolved.versionPadding (maybeEmitPivot resolved pt st).1 := by
  cases pt with
  | none => exact hQ
  | some pivotTable =>
    unfold maybeEmitPivot
    by_cases hc : st.2.2.contains pivotTable.name = true
    · simp only [hc, if_true]
      exact hQ
    · simp only [Bool.not_eq_true] at hc
      simp only [hc, Bool.false_eq_true, if_false]
      exact versionsOk_push start resolved st.1 st.2.1 pivotTable .pivot hQ.1 hQ.2

theorem generateMigrationsCore_versionsOk (schemas : SchemaCollection)
    (resolved : ResolvedSqlOptions) :
    versionsOk resolved.startVersion resolved.versionPadding
      (generateMigrationsCore schemas resolved) := by
  unfold generateMigrationsCore
  set start := resolved.startVersion with hstart
  set sortedSchemas := topologicalSort (schemas.filter (fun entry => entry.2.kind != "enum")) with hsorted
  have hcreate := foldlPreserves
    (fun st : List SqlMigration × Int =>
      st.2 = start + st.1.length ∧ versionsOk start resolved.versionPadding st.1)
    (fun (st : List SqlMigration × Int) schema =>
      let table := schemaToTable schema schemas resolved
      (st.1 ++ [createArtifact st.2 table resolved MigrationType.create], st.2 + 1))
    sortedSchemas ([], start)
    (fun st schema hst =>
      versionsOk_push start resolved st.1 st.2 (schemaToTable schema schemas resolved)
        MigrationType.create hst.1 hst.2)
    ⟨by simp, fun i hi => absurd hi (by simp)⟩
  have hfinal := foldlPreserves
    (fun st : List SqlMigration × Int × List String =>
      st.2.1 = start + st.1.length ∧ versionsOk start resolved.versionPadding st.1)
    (fun st schema => schema.properties.foldl (pivotStep schemas resolved schema) st)
    sortedSchemas
    ((sortedSchemas.foldl
      (fun (st : List SqlMigration × Int) schema =>
        let table := schemaToTable schema schemas resolved
        (st.1 ++ [createArtifact st.2 table resolved MigrationType.create], st.2 + 1))
      ([], start)).1,
     (sortedSchemas.foldl
      (fun (st : List SqlMigration × Int) schema =>
        let table := schemaToTable schema schemas resolved
        (st.1 ++ [createArtifact st.2 table resolved MigrationType.create], st.2 + 1))
      ([], start)).2, ([] : List String))
    (fun st schema hst =>
      foldlPreserves _ (pivotStep schemas resolved schema) schema.properties st
        (fun st' pp hst' => by
          have h1 := maybeEmitPivot_preserves resolved start
            (generatePivotTable schema pp.1 pp.2 schemas resolved) st' hst'
          have h2 := maybeEmitPivot_preserves resolved start
            (generateMorphPivotTable schema pp.1 pp.2 schemas resolved) _ h1
          exact h2)
        hst)
    ⟨hcreate.1, hcreate.2⟩
  exact hfinal.2

/-- C3: versions of the returned artifact list are the consecutive integers
starting at the configured startVersion (none reused), and every fileName is
the version zero-padded to the configured width, an underscore, the
artifact's short name, and `.sql`. -/
theorem migration_versions_consecutive (schemas : SchemaCollection)
    (options : SqlGeneratorOptions) (migs : List SqlMigration)
    (h : generateMigrations schemas options = Except.ok migs) :
    versionsOk (resolveOptions options).startVersion (resolveOptions options).versionPadding migs := by
  rcases hval : validateSchemaCompatibility schemas (resolveOptions options).dialect with e | u
  · simp only [generateMigrations, hval] at h
    exact absurd h (by simp)
  · simp only [generateMigrations, hval, Except.ok.injEq] at h
    rw [← h]
    exact generateMigrationsCore_versionsOk schemas (resolveOptions options)

theorem migration_versions_consecutive_witness :
    versionsOk (resolveOptions mysqlOpts).startVersion (resolveOptions mysqlOpts).versionPadding
      ((generateMigrations userRoleSchemasA mysqlOpts).toOption.getD []) :=
  migration_versions_consecutive userRoleSchemasA mysqlOpts _ (by rfl)

/-- A schema entity contributes to the morph pivot of `target`: it is the
declaring source or any other entity in the collection with a MorphToMany
association to the same target. -/
def ContributingOwner (sourceSchema : LoadedSchema) (target : String)
    (allSchemas : SchemaCollection) (n : String) : Prop :=
  n = sourceSchema.name
  ∨ (n ≠ sourceSchema.name ∧ ∃ s, (n, s) ∈ allSchemas
      ∧ ∃ q ∈ s.properties, (q : String × PropertyDefinition).2.type = "Association"
          ∧ q.2.relation = some "MorphToMany" ∧ q.2.target = some target)

/-- A schema entity whose name looks up to a schema with UUID identity. -/
def OwnerUsesUuid (allSchemas : SchemaCollection) (n : String) : Prop :=
  ∃ s, scLookup allSchemas n = some s ∧ s.options.bind SchemaOptions.idType = some "Uuid"

theorem morphMatch_any_iff (target : String) (s : LoadedSchema) :
    (s.properties.any (fun pp =>
        pp.2.type == "Association" && pp.2.relation == some "MorphToMany"
          && pp.2.target == some target)) = true
      ↔ ∃ q ∈ s.properties, (q : String × PropertyDefinition).2.type = "Association"
          ∧ q.2.relation = some "MorphToMany" ∧ q.2.target = some target := by
  rw [List.any_eq_true]
  refine exists_congr (fun q => ?_)
  constructor
  · rintro ⟨hq, hcond⟩
    simp only [Bool.and_eq_true, beq_iff_eq] at hcond
    exact ⟨hq, hcond.1.1, hcond.1.2, hcond.2⟩
  · rintro ⟨hq, h1, h2, h3⟩
    refine ⟨hq, ?_⟩
    simp [h1, h2, h3]

theorem mem_morphContributors_iff (sourceSchema : LoadedSchema) (target : String)
    (allSchemas : SchemaCollection) (n : String) :
    n ∈ morphContributors sourceSchema target allSchemas
      ↔ ContributingOwner sourceSchema target allSchemas n := by
  unfold morphContributors ContributingOwner
  suffices main : ∀ (l : List (String × LoadedSchema)) (acc : List String),
      (n ∈ l.foldl (fun acc entry =>
          if entry.1 == sourceSchema.name then acc
          else if (entry.2.properties.any (fun pp =>
              pp.2.type == "Association" && pp.2.relation == some "MorphToMany"
                && pp.2.target == some target)) && !acc.contains entry.1 then
            acc ++ [entry.1]
          else acc) acc
        ↔ n ∈ acc ∨ (n ≠ sourceSchema.name ∧ ∃ s, (n, s) ∈ l
            ∧ ∃ q ∈ s.properties, (q : String × PropertyDefinition).2.type = "Association"
                ∧ q.2.relation = some "MorphToMany" ∧ q.2.target = some target)) by
    rw [main allSchemas [sourceSchema.name]]
    simp [List.mem_singleton]
  intro l
  induction l with
  | nil => intro acc; simp
  | cons e t ih =>
    intro acc
    simp only [List.foldl_cons]
    by_cases hsrc : e.1 = sourceSchema.name
    · rw [if_pos (beq_iff_eq.mpr hsrc)]
      rw [ih acc]
      constructor
      · rintro (h | h)
        · exact Or.inl h
        · exact Or.inr ⟨h.1, h.2.choose, List.mem_cons_of_mem e h.2.choose_spec.1, h.2.choose_spec.2⟩
      · rintro (h | ⟨hne, s, hs, hq⟩)
        · exact Or.inl h
        · rcases List.mem_cons.mp hs with heq | hs'
          · exfalso
            have : n = e.1 := by rw [← heq]
            exact hne (this.trans hsrc)
          · exact Or.inr ⟨hne, s, hs', hq⟩
    · rw [if_neg (by simpa using hsrc)]
      by_cases hmatch : (e.2.properties.any (fun pp =>
          pp.2.type == "Association" && pp.2.relation == some "MorphToMany"
            && pp.2.target == some target)) = true
      · by_cases hmem : acc.contains e.1 = true
        · have hmem' : e.1 ∈ acc := List.elem_iff.mp hmem
          rw [if_neg (by simp [hmatch, hmem'])]
          rw [ih acc]
          constructor
          · rintro (h | h)
            · exact Or.inl h
            · exact Or.inr ⟨h.1, h.2.choose, List.mem_cons_of_mem e h.2.choose_spec.1, h.2.choose_spec.2⟩
          · rintro (h | ⟨hne, s, hs, hq⟩)
            · exact Or.inl h
            · rcases List.mem_cons.mp hs with heq | hs'
              · have hn : n = e.1 := by rw [← heq]
                exact Or.inl (hn ▸ hmem')
              · exact Or.inr ⟨hne, s, hs', hq⟩
        · have hmem' : e.1 ∉ acc := fun hh => hmem (List.elem_iff.mpr hh)
          rw [if_pos (by simp [hmatch, hmem'])]
          rw [ih (acc ++ [e.1])]
          have hmm := (morphMatch_any_iff target e.2).mp hmatch
          constructor
          · rintro (h | h)
            · rcases List.mem_append.mp h with h' | h'
              · exact Or.inl h'
              · have hn : n = e.1 := List.mem_singleton.mp h'
                refine Or.inr ⟨?_, e.2, ?_, hmm⟩
                · rw [hn]; exact hsrc
                · rw [hn, Prod.mk.eta]
                  exact List.mem_cons_self e t
            · exact Or.inr ⟨h.1, h.2.choose, List.mem_cons_of_mem e h.2.choose_spec.1, h.2.choose_spec.2⟩
          · rintro (h | ⟨hne, s, hs, hq⟩)
            · exact Or.inl (List.mem_append.mpr (Or.inl h))
            · rcases List.mem_cons.mp hs with heq | hs'
              · have hn : n = e.1 := by rw [← heq]
                exact Or.inl (List.mem_append.mpr (Or.inr (List.mem_singleton.mpr hn)))
              · exact Or.inr ⟨hne, s, hs', hq⟩
      · rw [if_neg (by simp [hmatch])]
        rw [ih acc]
        constructor
        · rintro (h | h)
          · exact Or.inl h
          · exact Or.inr ⟨h.1, h.2.choose, List.mem_cons_of_mem e h.2.choose_spec.1, h.2.choose_spec.2⟩
        · rintro (h | ⟨hne, s, hs, hq⟩)
          · exact Or.inl h
          · rcases List.mem_cons.mp hs with heq | hs'
            · exfalso
              have hn : n = e.1 := by rw [← heq]
              have hs2 : s = e.2 := by rw [← heq]
              exact hmatch ((morphMatch_any_iff target e.2).mpr (hs2 ▸ hq))
            · exact Or.inr ⟨hne, s, hs', hq⟩

theorem morphUseUuid_iff (sourceSchema : LoadedSchema) (target : String)
    (allSchemas : SchemaCollection) :
    ((morphContributors sourceSchema target allSchemas).any (fun targetName =>
      match scLookup allSchemas targetName with
      | some s => (s.options.bind SchemaOptions.idType) == some "Uuid"
      | none => false)) = true
    ↔ ∃ n, ContributingOwner sourceSchema target allSchemas n ∧ OwnerUsesUuid allSchemas n := by
  rw [List.any_eq_true]
  constructor
  · rintro ⟨x, hx, hpred⟩
    refine ⟨x, (mem_morphContributors_iff sourceSchema target allSchemas x).mp hx, ?_⟩
    cases hlk : scLookup allSchemas x with
    | none => rw [hlk] at hpred; cases hpred
    | some s =>
      rw [hlk] at hpred
      exact ⟨s, hlk, beq_iff_eq.mp hpred⟩
  · rintro ⟨x, hc, s, hlk, huuid⟩
    refine ⟨x, (mem_morphContributors_iff sourceSchema target allSchemas x).mpr hc, ?_⟩
    rw [hlk]
    exact beq_iff_eq.mpr huuid

theorem morphUuidIdType_ne_intIdType (d : SqlDialect) : morphUuidIdType d ≠ morphIntIdType d := by
  cases d <;> decide

/-- C7: a MorphToMany association to `Tag` with no explicit join table yields
the pivot `tagables` with three non-null columns (target FK, discriminator
enum over all contributing owners, morph id), one foreign key on the target
side only, three indexes (composite unique over all three columns, plain on
the target FK, plain composite over the type/id pair), and a UUID-capable
morph id column exactly when some contributing owner uses UUID identity. -/
theorem morph_to_many_pivot_tagables
    (sourceSchema : LoadedSchema) (propName : String) (property : PropertyDefinition)
    (allSchemas : SchemaCollection) (resolved : ResolvedSqlOptions) (tagSchema : LoadedSchema)
    (hT : property.type = "Association")
    (hR : property.relation = some "MorphToMany")
    (hTarget : property.target = some "Tag")
    (hJoin : property.joinTable = none)
    (hTag : scLookup allSchemas "Tag" = some tagSchema) :
    ∃ fkCol typeCol idCol,
      generateMorphPivotTable sourceSchema propName property allSchemas resolved
        = some
          { name := "tagables"
            columns := [fkCol, typeCol, idCol]
            foreignKeys :=
              [ { name := "fk_tagables_tag_id", columns := ["tag_id"]
                  referencesTable := "tags", referencesColumns := ["id"]
                  onDelete := property.onDelete.getD "CASCADE", onUpdate := "CASCADE" } ]
            indexes :=
              [ { name := "idx_tagables_unique"
                  columns := ["tag_id", "tagable_type", "tagable_id"], unique := true },
                { name := "idx_tagables_tag_id", columns := ["tag_id"], unique := false },
                { name := "idx_tagables_morphable"
                  columns := ["tagable_type", "tagable_id"], unique := false } ] }
      ∧ fkCol.name = "tag_id" ∧ typeCol.name = "tagable_type" ∧ idCol.name = "tagable_id"
      ∧ fkCol.nullable = false ∧ typeCol.nullable = false ∧ idCol.nullable = false
      ∧ fkCol.type = getForeignKeyType ((tagSchema.options.bind SchemaOptions.idType).getD "BigInt") resolved.dialect
      ∧ typeCol.type = (getEnumType (morphContributors sourceSchema "Tag" allSchemas)
          resolved.dialect (some "tagable_type_enum")).type
      ∧ (∀ n, n ∈ morphContributors sourceSchema "Tag" allSchemas
          ↔ ContributingOwner sourceSchema "Tag" allSchemas n)
      ∧ (idCol.type = morphUuidIdType resolved.dialect
          ↔ ∃ n, ContributingOwner sourceSchema "Tag" allSchemas n ∧ OwnerUsesUuid allSchemas n)
      ∧ (idCol.type = morphUuidIdType resolved.dialect ∨ idCol.type = morphIntIdType resolved.dialect) := by
  unfold generateMorphPivotTable
  have hopt : optNonempty (some "Tag") = some "Tag" := rfl
  simp only [hT, hR, hTarget, hJoin, hopt, bne_self_eq_false, Bool.false_eq_true, if_false, hTag]
  by_cases huu : ((morphContributors sourceSchema "Tag" allSchemas).any (fun targetName =>
      match scLookup allSchemas targetName with
      | some s => (s.options.bind SchemaOptions.idType) == some "Uuid"
      | none => false)) = true
  · simp only [huu, if_true]
    refine ⟨_, _, _, rfl, rfl, rfl, rfl, rfl, rfl, rfl, rfl, rfl,
      fun n => mem_morphContributors_iff sourceSchema "Tag" allSchemas n, ?_, Or.inl rfl⟩
    exact iff_of_true rfl ((morphUseUuid_iff sourceSchema "Tag" allSchemas).mp huu)
  · have huu' : ((morphContributors sourceSchema "Tag" allSchemas).any (fun targetName =>
        match scLookup allSchemas targetName with
        | some s => (s.options.bind SchemaOptions.idType) == some "Uuid"
        | none => false)) = false := by
      simpa using huu
    simp only [huu', Bool.false_eq_true, if_false]
    refine ⟨_, _, _, rfl, rfl, rfl, rfl, rfl, rfl, rfl, rfl, rfl,
      fun n => mem_morphContributors_iff sourceSchema "Tag" allSchemas n, ?_, Or.inr rfl⟩
    refine iff_of_false (fun h => morphUuidIdType_ne_intIdType resolved.dialect h.symm) ?_
    intro hex
    exact huu ((morphUseUuid_iff sourceSchema "Tag" allSchemas).mpr hex)

/-- Witness input: Post declares MorphToMany to Tag. -/
def tagSchemaW : LoadedSchema :=
  { name := "Tag", kind := "object", properties := [("name", { type := "String" })] }

def tagsMorphPropW : PropertyDefinition :=
  { type := "Association", relation := some "MorphToMany", target := some "Tag" }

def postSchemaW : LoadedSchema :=
  { name := "Post", kind := "object", properties := [("tags", tagsMorphPropW)] }

def morphSchemasW : SchemaCollection := [("Post", postSchemaW), ("Tag", tagSchemaW)]

theorem morph_to_many_pivot_tagables_witness :
    ∃ t, generateMorphPivotTable postSchemaW "tags" tagsMorphPropW morphSchemasW
        (resolveOptions mysqlOpts) = some t
      ∧ t.name = "tagables"
      ∧ t.columns.map SqlColumn.name = ["tag_id", "tagable_type", "tagable_id"] := by
  obtain ⟨fkCol, typeCol, idCol, heq, h1, h2, h3, _⟩ :=
    morph_to_many_pivot_tagables postSchemaW "tags" tagsMorphPropW morphSchemasW
      (resolveOptions mysqlOpts) tagSchemaW rfl rfl rfl rfl rfl
  refine ⟨_, heq, rfl, ?_⟩
  simp [h1, h2, h3]

/-- Foreign-key dependency edge: schema `a` (by key) has a ManyToOne/OneToOne
association targeting `b`. -/
def DepEdge (schemas : SchemaCollection) (a b : String) : Prop :=
  ∃ s, scLookup schemas a = some s ∧ b ∈ depTargets s

/-- The dependency graph has no (nonempty) cycle. -/
def AcyclicDeps (schemas : SchemaCollection) : Prop :=
  ∀ a, ¬ Relation.TransGen (DepEdge schemas) a a

/-- Well-formed collection: unique keys, and every schema's `name` field
agrees with its key. -/
def WFCollection (schemas : SchemaCollection) : Prop :=
  (scKeys schemas).Nodup ∧ ∀ p ∈ schemas, (p : String × LoadedSchema).2.name = p.1

/-- The list is ordered by dependencies: every dependency of the i-th element
that is a key of the collection appears (by name) strictly earlier. -/
def OrderedByDeps (schemas : SchemaCollection) (l : List LoadedSchema) : Prop :=
  ∀ i (hi : i < l.length), ∀ d, d ∈ depTargets l[i] → d ∈ scKeys schemas →
    ∃ j, ∃ (hj : j < l.length), j < i ∧ (l[j]).name = d

/-- Invariant of the DFS state: names of the emitted schemas are exactly the
visited set (in reverse push order), visited names are keys, emitted schemas
look up to themselves, the emitted prefix is ordered by dependencies, and the
in-progress set has no duplicates. -/
def TopoInv (schemas : SchemaCollection) (st : TopoState) : Prop :=
  st.sorted.map LoadedSchema.name = st.visited.reverse
  ∧ (∀ v ∈ st.visited, v ∈ scKeys schemas)
  ∧ (∀ s ∈ st.sorted, scLookup schemas s.name = some s)
  ∧ OrderedByDeps schemas st.sorted
  ∧ st.visiting.Nodup

/-- Number of keys not currently in the `visiting` set. -/
def unseenCount (schemas : SchemaCollection) (visiting : List String) : Nat :=
  ((scKeys schemas).filter (fun k => !visiting.contains k)).length

/-- Relation between DFS states before and after a visit: invariant holds,
visited grows, sorted extends, visiting grows only by non-keys. -/
def StatePost (schemas : SchemaCollection) (st st' : TopoState) : Prop :=
  TopoInv schemas st'
  ∧ (∀ v ∈ st.visited, v ∈ st'.visited)
  ∧ (∃ ext, st'.sorted = st.sorted ++ ext)
  ∧ (∀ v ∈ st.visiting, v ∈ st'.visiting)
  ∧ (∀ v ∈ st'.visiting, v ∈ st.visiting ∨ v ∉ scKeys schemas)

theorem statePost_refl (schemas : SchemaCollection) (st : TopoState) (h : TopoInv schemas st) :
    StatePost schemas st st :=
  ⟨h, fun _ hv => hv, ⟨[], by simp⟩, fun _ hv => hv, fun _ hv => Or.inl hv⟩

theorem statePost_trans {schemas : SchemaCollection} {s1 s2 s3 : TopoState}
    (h12 : StatePost schemas s1 s2) (h23 : StatePost schemas s2 s3) :
    StatePost schemas s1 s3 := by
  refine ⟨h23.1, fun v hv => h23.2.1 v (h12.2.1 v hv), ?_, fun v hv => h23.2.2.2.1 v (h12.2.2.2.1 v hv), ?_⟩
  · rcases h12.2.2.1 with ⟨e1, he1⟩
    rcases h23.2.2.1 with ⟨e2, he2⟩
    exact ⟨e1 ++ e2, by rw [he2, he1, List.append_assoc]⟩
  · intro v hv
    rcases h23.2.2.2.2 v hv with hv2 | hnk
    · rcases h12.2.2.2.2 v hv2 with hv1 | hnk
      · exact Or.inl hv1
      · exact Or.inr hnk
    · exact Or.inr hnk

theorem contains_eq_true_of_mem {l : List String} {a : String} (h : a ∈ l) :
    l.contains a = true := List.elem_iff.mpr h

theorem contains_eq_false_of_not_mem {l : List String} {a : String} (h : a ∉ l) :
    l.contains a = false := by
  cases hc : l.contains a
  · rfl
  · exact absurd (List.elem_iff.mp hc) h

theorem unseen_eq_of_statePost {schemas : SchemaCollection} {st st' : TopoState}
    (h : StatePost schemas st st') :
    unseenCount schemas st'.visiting = unseenCount schemas st.visiting := by
  unfold unseenCount
  congr 1
  apply List.filter_congr
  intro k hk
  by_cases hmem : k ∈ st.visiting
  · rw [contains_eq_true_of_mem hmem, contains_eq_true_of_mem (h.2.2.2.1 k hmem)]
  · have hnot' : k ∉ st'.visiting := by
      intro hin
      rcases h.2.2.2.2 k hin with hin1 | hnk
      · exact hmem hin1
      · exact hnk hk
    rw [contains_eq_false_of_not_mem hmem, contains_eq_false_of_not_mem hnot']

theorem scLookup_mem {schemas : SchemaCollection} {n : String} {s : LoadedSchema}
    (h : scLookup schemas n = some s) : (n, s) ∈ schemas := by
  unfold scLookup at h
  cases hf : schemas.find? (fun p => p.1 == n) with
  | none => rw [hf] at h; cases h
  | some pr =>
    rw [hf] at h
    have hmem := List.mem_of_find?_eq_some hf
    have hkey : pr.1 = n := by
      have := List.find?_some hf
      simpa using this
    have hs : pr.2 = s := by simpa using h
    have : (n, s) = pr := by
      rw [← hkey, ← hs]
    rw [this]
    exact hmem

theorem scLookup_eq_none_iff {schemas : SchemaCollection} {n : String} :
    scLookup schemas n = none ↔ n ∉ scKeys schemas := by
  unfold scLookup scKeys
  rw [Option.map_eq_none', List.find?_eq_none]
  constructor
  · intro h hmem
    rcases List.mem_map.mp hmem with ⟨p, hp, hpk⟩
    exact absurd (beq_iff_eq.mpr hpk) (by simpa using h p hp)
  · intro h p hp
    intro hbeq
    exact h (List.mem_map.mpr ⟨p, hp, beq_iff_eq.mp hbeq⟩)

theorem mem_scKeys_of_lookup {schemas : SchemaCollection} {n : String} {s : LoadedSchema}
    (h : scLookup schemas n = some s) : n ∈ scKeys schemas := by
  by_contra hnk
  rw [← scLookup_eq_none_iff] at hnk
  rw [h] at hnk
  cases hnk

theorem scLookup_of_mem_nodup {schemas : SchemaCollection} {n : String} {s : LoadedSchema}
    (hnd : (scKeys schemas).Nodup) (hmem : (n, s) ∈ schemas) :
    scLookup schemas n = some s := by
  induction schemas with
  | nil => cases hmem
  | cons e t ih =>
    rcases List.mem_cons.mp hmem with heq | hmem'
    · unfold scLookup
      rw [List.find?_cons_of_pos _ (by rw [← heq]; exact beq_self_eq_true n)]
      rw [← heq]
      rfl
    · have hkne : e.1 ≠ n := by
        intro hk
        have : n ∈ scKeys t := List.mem_map.mpr ⟨(n, s), hmem', rfl⟩
        have hnd1 : e.1 ∉ scKeys t := by
          have := hnd
          unfold scKeys at this
          rw [List.map_cons] at this
          exact (List.nodup_cons.mp this).1
        rw [hk] at hnd1
        exact hnd1 this
      unfold scLookup
      rw [List.find?_cons_of_neg _ (by simpa using hkne)]
      have hnd' : (scKeys t).Nodup := by
        have := hnd
        unfold scKeys at this ⊢
        rw [List.map_cons] at this
        exact (List.nodup_cons.mp this).2
      exact ih hnd' hmem'

theorem filter_length_flip_one {α : Type _} [DecidableEq α] (p q : α → Bool) (a : α)
    (l : List α) (hnd : l.Nodup) (ha : a ∈ l) (hpa : p a = true) (hqa : q a = false)
    (hagree : ∀ x ∈ l, x ≠ a → p x = q x) :
    (l.filter q).length + 1 = (l.filter p).length := by
  induction l with
  | nil => cases ha
  | cons x t ih =>
    rcases List.nodup_cons.mp hnd with ⟨hx, hndt⟩
    by_cases hxa : x = a
    · subst hxa
      rw [List.filter_cons_of_pos hpa, List.filter_cons_of_neg (by simp [hqa])]
      have hft : t.filter p = t.filter q :=
        List.filter_congr (fun y hy => hagree y (List.mem_cons_of_mem x hy)
          (fun hya => hx (hya ▸ hy)))
      rw [List.length_cons, hft]
    · have hmem : a ∈ t := by
        rcases List.mem_cons.mp ha with h | h
        · exact absurd h.symm hxa
        · exact h
      have hpq : p x = q x := hagree x (List.mem_cons_self x t) hxa
      cases hpx : p x with
      | true =>
        rw [List.filter_cons_of_pos hpx, List.filter_cons_of_pos (by rw [← hpq]; exact hpx)]
        simp only [List.length_cons]
        have := ih hndt hmem (fun y hy hya => hagree y (List.mem_cons_of_mem x hy) hya)
        omega
      | false =>
        have hqx : q x = false := by rw [← hpq]; exact hpx
        rw [List.filter_cons_of_neg (by simp [hqx]), List.filter_cons_of_neg (by simp [hpx])]
        exact ih hndt hmem (fun y hy hya => hagree y (List.mem_cons_of_mem x hy) hya)

theorem unseen_push (schemas : SchemaCollection) (name : String) (visiting : List String)
    (hnd : (scKeys schemas).Nodup) (hk : name ∈ scKeys schemas) (hnv : name ∉ visiting) :
    unseenCount schemas (name :: visiting) + 1 = unseenCount schemas visiting := by
  unfold unseenCount
  apply filter_length_flip_one (fun k => !visiting.contains k)
    (fun k => !(name :: visiting).contains k) name _ hnd hk
  · show (!visiting.contains name) = true
    rw [contains_eq_false_of_not_mem hnv]
    rfl
  · show (!(name :: visiting).contains name) = false
    rw [contains_eq_true_of_mem (List.mem_cons_self name visiting)]
    rfl
  · intro x hx hxa
    show (!visiting.contains x) = (!(name :: visiting).contains x)
    have hcc : (name :: visiting).contains x = visiting.contains x := by
      by_cases hxv : x ∈ visiting
      · rw [contains_eq_true_of_mem hxv, contains_eq_true_of_mem (List.mem_cons_of_mem _ hxv)]
      · rw [contains_eq_false_of_not_mem hxv, contains_eq_false_of_not_mem (by
          intro hmm
          rcases List.mem_cons.mp hmm with h | h
          · exact hxa h
          · exact hxv h)]
    rw [hcc]

theorem visitSchema_spec (schemas : SchemaCollection)
    (hwf : WFCollection schemas) (hacyc : AcyclicDeps schemas) :
    ∀ fuel name st,
      TopoInv schemas st →
      (∀ v ∈ st.visiting, v ∈ scKeys schemas →
        Relation.ReflTransGen (DepEdge schemas) v name) →
      unseenCount schemas st.visiting + 1 ≤ fuel →
      StatePost schemas st (visitSchema schemas fuel name st)
      ∧ (name ∈ scKeys schemas → name ∉ st.visiting →
          name ∈ (visitSchema schemas fuel name st).visited) := by
  intro fuel
  induction fuel with
  | zero =>
    intro name st _ _ hbound
    omega
  | succ fuel ih =>
    intro name st hinv hanc hbound
    by_cases hv : st.visited.contains name = true
    · rw [show visitSchema schemas (Nat.succ fuel) name st = st by
        rw [visitSchema]; rw [if_pos hv]]
      exact ⟨statePost_refl _ _ hinv, fun _ _ => List.elem_iff.mp hv⟩
    · by_cases hvg : st.visiting.contains name = true
      · rw [show visitSchema schemas (Nat.succ fuel) name st = st by
          rw [visitSchema]; rw [if_neg hv, if_pos hvg]]
        exact ⟨statePost_refl _ _ hinv,
          fun _ hnin => absurd (List.elem_iff.mp hvg) hnin⟩
      · have hnvisited : name ∉ st.visited := fun h => hv (contains_eq_true_of_mem h)
        have hnvisiting : name ∉ st.visiting := fun h => hvg (contains_eq_true_of_mem h)
        cases hlk : scLookup schemas name with
        | none =>
          have hnk : name ∉ scKeys schemas := scLookup_eq_none_iff.mp hlk
          rw [show visitSchema schemas (Nat.succ fuel) name st
              = { st with visiting := name :: st.visiting } by
            rw [visitSchema]; rw [if_neg hv, if_neg hvg, hlk]]
          refine ⟨⟨⟨hinv.1, hinv.2.1, hinv.2.2.1, hinv.2.2.2.1, ?_⟩, fun v hv => hv,
            ⟨[], by simp⟩, fun v hv => List.mem_cons_of_mem _ hv, ?_⟩, fun hk _ => absurd hk hnk⟩
          · exact List.nodup_cons.mpr ⟨hnvisiting, hinv.2.2.2.2⟩
          · intro v hvv
            rcases List.mem_cons.mp hvv with rfl | hvv'
            · exact Or.inr hnk
            · exact Or.inl hvv'
        | some schema =>
          have hkey : name ∈ scKeys schemas := mem_scKeys_of_lookup hlk
          have hname : schema.name = name := hwf.2 (name, schema) (scLookup_mem hlk)
          -- state after pushing name onto visiting
          have hinv1 : TopoInv schemas { st with visiting := name :: st.visiting } :=
            ⟨hinv.1, hinv.2.1, hinv.2.2.1, hinv.2.2.2.1,
              List.nodup_cons.mpr ⟨hnvisiting, hinv.2.2.2.2⟩⟩
          have hbound1 : unseenCount schemas (name :: st.visiting) + 1 ≤ fuel := by
            have := unseen_push schemas name st.visiting hwf.1 hkey hnvisiting
            omega
          have hanc1 : ∀ v ∈ (name :: st.visiting), v ∈ scKeys schemas →
              Relation.ReflTransGen (DepEdge schemas) v name := by
            intro v hvv hk
            rcases List.mem_cons.mp hvv with rfl | hvv'
            · exact Relation.ReflTransGen.refl
            · exact hanc v hvv' hk
          -- the fold over the dependency targets
          have hfold : ∀ (deps : List String), (∀ d ∈ deps, d ∈ depTargets schema) →
              ∀ st', TopoInv schemas st' →
                name ∈ st'.visiting →
                (∀ v ∈ st'.visiting, v ∈ scKeys schemas →
                  Relation.ReflTransGen (DepEdge schemas) v name) →
                unseenCount schemas st'.visiting + 1 ≤ fuel →
                StatePost schemas st' (deps.foldl (fun s d => visitSchema schemas fuel d s) st')
                ∧ name ∈ (deps.foldl (fun s d => visitSchema schemas fuel d s) st').visiting
                ∧ (∀ v ∈ (deps.foldl (fun s d => visitSchema schemas fuel d s) st').visiting,
                    v ∈ scKeys schemas → Relation.ReflTransGen (DepEdge schemas) v name)
                ∧ unseenCount schemas
                    (deps.foldl (fun s d => visitSchema schemas fuel d s) st').visiting + 1 ≤ fuel
                ∧ (∀ d ∈ deps, d ∈ scKeys schemas →
                    d ∈ (deps.foldl (fun s d => visitSchema schemas fuel d s) st').visited) := by
            intro deps
            induction deps with
            | nil =>
              intro _ st' h1 h2 h3 h4
              exact ⟨statePost_refl _ _ h1, h2, h3, h4, by simp⟩
            | cons d rest ihd =>
              intro hdeps st' h1 h2 h3 h4
              simp only [List.foldl_cons]
              have hd : d ∈ depTargets schema := hdeps d (List.mem_cons_self d rest)
              have hedge : DepEdge schemas name d := ⟨schema, hlk, hd⟩
              have hancd : ∀ v ∈ st'.visiting, v ∈ scKeys schemas →
                  Relation.ReflTransGen (DepEdge schemas) v d :=
                fun v hvv hk => Relation.ReflTransGen.tail (h3 v hvv hk) hedge
              have hstep := ih d st' h1 hancd h4
              have hSP := hstep.1
              have h1' : TopoInv schemas (visitSchema schemas fuel d st') := hSP.1
              have hnamein : name ∈ (visitSchema schemas fuel d st').visiting :=
                hSP.2.2.2.1 name h2
              have h3' : ∀ v ∈ (visitSchema schemas fuel d st').visiting, v ∈ scKeys schemas →
                  Relation.ReflTransGen (DepEdge schemas) v name := by
                intro v hvv hk
                rcases hSP.2.2.2.2 v hvv with hin | hnk
                · exact h3 v hin hk
                · exact absurd hk hnk
              have h4' : unseenCount schemas (visitSchema schemas fuel d st').visiting + 1 ≤ fuel := by
                rw [unseen_eq_of_statePost hSP]
                exact h4
              have hrest := ihd (fun d' hd' => hdeps d' (List.mem_cons_of_mem d hd'))
                (visitSchema schemas fuel d st') h1' hnamein h3' h4'
              refine ⟨statePost_trans hSP hrest.1, hrest.2.1, hrest.2.2.1, hrest.2.2.2.1, ?_⟩
              intro d' hd' hk'
              rcases List.mem_cons.mp hd' with rfl | hmem
              · by_cases hdv : d' ∈ st'.visiting
                · exact absurd (Relation.TransGen.tail' (h3 d' hdv hk') hedge) (hacyc d')
                · have hdvisited : d' ∈ (visitSchema schemas fuel d' st').visited :=
                    hstep.2 hk' hdv
                  exact hrest.1.2.1 d' hdvisited
              · exact hrest.2.2.2.2 d' hmem hk'
          obtain ⟨hSP2, hnameIn2, hanc2, hbound2, hdepsVis⟩ :=
            hfold (depTargets schema) (fun d hd => hd)
              { st with visiting := name :: st.visiting } hinv1
              (List.mem_cons_self name st.visiting) hanc1 hbound1
          set st2 := (depTargets schema).foldl (fun s d => visitSchema schemas fuel d s)
            { st with visiting := name :: st.visiting } with hst2
          rw [show visitSchema schemas (Nat.succ fuel) name st
              = { sorted := st2.sorted ++ [schema], visited := name :: st2.visited,
                  visiting := st2.visiting.erase name } by
            rw [visitSchema]; rw [if_neg hv, if_neg hvg, hlk]]
          have hinv2 := hSP2.1
          -- mem of visited ↔ mem of sorted names, via the reverse equation
          have hmemnames : ∀ x, x ∈ st2.visited → x ∈ st2.sorted.map LoadedSchema.name := by
            intro x hx
            rw [hinv2.1]
            exact List.mem_reverse.mpr hx
          have names_eq : (st2.sorted ++ [schema]).map LoadedSchema.name
              = (name :: st2.visited).reverse := by
            rw [List.map_append, hinv2.1]
            simp [hname]
          have visited_keys : ∀ v ∈ (name :: st2.visited), v ∈ scKeys schemas := by
            intro v hvv
            rcases List.mem_cons.mp hvv with rfl | hvv'
            · exact hkey
            · exact hinv2.2.1 v hvv'
          have lookup_ok : ∀ s ∈ (st2.sorted ++ [schema]), scLookup schemas s.name = some s := by
            intro s hs
            rcases List.mem_append.mp hs with hs' | hs'
            · exact hinv2.2.2.1 s hs'
            · rw [List.mem_singleton.mp hs', hname]
              exact hlk
          have ordered_ok : OrderedByDeps schemas (st2.sorted ++ [schema]) := by
            intro i hi d hd hk
            rw [List.length_append, List.length_singleton] at hi
            by_cases hilt : i < st2.sorted.length
            · rw [List.getElem_append_left hilt] at hd
              obtain ⟨j, hj, hji, hjname⟩ := hinv2.2.2.2.1 i hilt d hd hk
              refine ⟨j, by rw [List.length_append, List.length_singleton]; omega, hji, ?_⟩
              rw [List.getElem_append_left hj]
              exact hjname
            · have hieq : i = st2.sorted.length := by omega
              subst hieq
              rw [List.getElem_concat_length _ _ _ rfl (by simp)] at hd
              have hdv : d ∈ st2.visited := hdepsVis d hd hk
              have hdn : d ∈ st2.sorted.map LoadedSchema.name := hmemnames d hdv
              rcases List.mem_map.mp hdn with ⟨s, hsmem, hsname⟩
              rcases List.mem_iff_getElem.mp hsmem with ⟨j, hj, hjs⟩
              refine ⟨j, by rw [List.length_append, List.length_singleton]; omega, by omega, ?_⟩
              rw [List.getElem_append_left hj, hjs, hsname]
          have nodup_ok : (st2.visiting.erase name).Nodup := hinv2.2.2.2.2.erase name
          have visited_mono : ∀ v ∈ st.visited, v ∈ (name :: st2.visited) := fun v hvv =>
            List.mem_cons_of_mem _ (hSP2.2.1 v hvv)
          have sorted_ext : ∃ ext, st2.sorted ++ [schema] = st.sorted ++ ext := by
            rcases hSP2.2.2.1 with ⟨ext, hext⟩
            exact ⟨ext ++ [schema], by rw [hext]; simp⟩
          have visiting_mono : ∀ v ∈ st.visiting, v ∈ st2.visiting.erase name := by
            intro v hvv
            have hvne : v ≠ name := fun h => hnvisiting (h ▸ hvv)
            have hv2 : v ∈ st2.visiting := hSP2.2.2.2.1 v (List.mem_cons_of_mem _ hvv)
            exact (List.mem_erase_of_ne hvne).mpr hv2
          have visiting_nonkeys : ∀ v ∈ st2.visiting.erase name,
              v ∈ st.visiting ∨ v ∉ scKeys schemas := by
            intro v hvv
            have hvmem := List.mem_of_mem_erase hvv
            have hvne : v ≠ name := ((hinv2.2.2.2.2).mem_erase_iff.mp hvv).1
            rcases hSP2.2.2.2.2 v hvmem with hin | hnk
            · rcases List.mem_cons.mp hin with rfl | hin'
              · exact absurd rfl hvne
              · exact Or.inl hin'
            · exact Or.inr hnk
          exact ⟨⟨⟨names_eq, visited_keys, lookup_ok, ordered_ok, nodup_ok⟩,
            visited_mono, sorted_ext, visiting_mono, visiting_nonkeys⟩,
            fun _ _ => List.mem_cons_self name st2.visited⟩

theorem topologicalSort_spec (schemas : SchemaCollection)
    (hwf : WFCollection schemas) (hacyc : AcyclicDeps schemas) :
    OrderedByDeps schemas (topologicalSort schemas)
    ∧ (∀ s ∈ topologicalSort schemas, scLookup schemas s.name = some s)
    ∧ (∀ k ∈ scKeys schemas, ∃ i, ∃ (hi : i < (topologicalSort schemas).length),
        ((topologicalSort schemas)[i]).name = k) := by
  have hfold : ∀ (ks : List String), (∀ k ∈ ks, k ∈ scKeys schemas) →
      ∀ st, TopoInv schemas st → (∀ v ∈ st.visiting, v ∉ scKeys schemas) →
      TopoInv schemas (ks.foldl (fun st name => visitSchema schemas (schemas.length + 2) name st) st)
      ∧ (∀ v ∈ (ks.foldl (fun st name => visitSchema schemas (schemas.length + 2) name st) st).visiting,
          v ∉ scKeys schemas)
      ∧ (∀ v ∈ st.visited,
          v ∈ (ks.foldl (fun st name => visitSchema schemas (schemas.length + 2) name st) st).visited)
      ∧ (∀ k ∈ ks,
          k ∈ (ks.foldl (fun st name => visitSchema schemas (schemas.length + 2) name st) st).visited) := by
    intro ks
    induction ks with
    | nil =>
      intro _ st h1 h2
      exact ⟨h1, h2, fun v hv => hv, by simp⟩
    | cons k rest ihk =>
      intro hks st h1 h2
      simp only [List.foldl_cons]
      have hkk : k ∈ scKeys schemas := hks k (List.mem_cons_self k rest)
      have hbound : unseenCount schemas st.visiting + 1 ≤ schemas.length + 2 := by
        have h3 : unseenCount schemas st.visiting ≤ (scKeys schemas).length :=
          List.length_filter_le _ _
        have h4 : (scKeys schemas).length = schemas.length := List.length_map _ _
        omega
      have hstep := visitSchema_spec schemas hwf hacyc (schemas.length + 2) k st h1
        (fun v hv hk => absurd hk (h2 v hv)) hbound
      have hSP := hstep.1
      have h2' : ∀ v ∈ (visitSchema schemas (schemas.length + 2) k st).visiting,
          v ∉ scKeys schemas := by
        intro v hv
        rcases hSP.2.2.2.2 v hv with hin | hnk
        · exact h2 v hin
        · exact hnk
      have hkv : k ∈ (visitSchema schemas (schemas.length + 2) k st).visited :=
        hstep.2 hkk (fun hkin => h2 k hkin hkk)
      have hrest := ihk (fun k' hk' => hks k' (List.mem_cons_of_mem k hk'))
        (visitSchema schemas (schemas.length + 2) k st) hSP.1 h2'
      refine ⟨hrest.1, hrest.2.1, fun v hv => hrest.2.2.1 v (hSP.2.1 v hv), ?_⟩
      intro k' hk'
      rcases List.mem_cons.mp hk' with rfl | hmem
      · exact hrest.2.2.1 k' hkv
      · exact hrest.2.2.2 k' hmem
  have hinit : TopoInv schemas ⟨[], [], []⟩ :=
    ⟨rfl, by simp, by simp, fun i hi => absurd hi (by simp), List.nodup_nil⟩
  obtain ⟨hinvF, _, _, hvisF⟩ := hfold (scKeys schemas) (fun k hk => hk) ⟨[], [], []⟩ hinit (by simp)
  refine ⟨hinvF.2.2.2.1, hinvF.2.2.1, ?_⟩
  intro k hk
  have hkv := hvisF k hk
  have : k ∈ (topologicalSort schemas).map LoadedSchema.name := by
    unfold topologicalSort
    rw [hinvF.1]
    exact List.mem_reverse.mpr hkv
  rcases List.mem_map.mp this with ⟨s, hsmem, hsname⟩
  rcases List.mem_iff_getElem.mp hsmem with ⟨i, hi, his⟩
  exact ⟨i, hi, by rw [his, hsname]⟩

/-- The create artifacts emitted by the first loop, starting at version v. -/
def createArtifactsFrom (schemas : SchemaCollection) (resolved : ResolvedSqlOptions) :
    Int → List LoadedSchema → List SqlMigration
  | _, [] => []
  | v, s :: rest =>
    createArtifact v (schemaToTable s schemas resolved) resolved .create
      :: createArtifactsFrom schemas resolved (v + 1) rest

theorem createFold_eq (schemas : SchemaCollection) (resolved : ResolvedSqlOptions) :
    ∀ (l : List LoadedSchema) (acc : List SqlMigration) (v : Int),
      l.foldl (fun (st : List SqlMigration × Int) schema =>
          let table := schemaToTable schema schemas resolved
          (st.1 ++ [createArtifact st.2 table resolved MigrationType.create], st.2 + 1)) (acc, v)
        = (acc ++ createArtifactsFrom schemas resolved v l, v + l.length) := by
  intro l
  induction l with
  | nil => intro acc v; simp [createArtifactsFrom]
  | cons s rest ih =>
    intro acc v
    simp only [List.foldl_cons, createArtifactsFrom]
    rw [ih]
    simp only [Prod.mk.injEq]
    constructor
    · simp
    · simp only [List.length_cons]
      push_cast
      omega

theorem createArtifactsFrom_length (schemas : SchemaCollection) (resolved : ResolvedSqlOptions) :
    ∀ (l : List LoadedSchema) (v : Int),
      (createArtifactsFrom schemas resolved v l).length = l.length := by
  intro l
  induction l with
  | nil => intro v; rfl
  | cons s rest ih => intro v; simp [createArtifactsFrom, ih]

theorem createArtifactsFrom_getElem (schemas : SchemaCollection) (resolved : ResolvedSqlOptions) :
    ∀ (l : List LoadedSchema) (v : Int) (i : Nat) (hi : i < l.length)
      (hi' : i < (createArtifactsFrom schemas resolved v l).length),
      (createArtifactsFrom schemas resolved v l)[i]
        = createArtifact (v + i) (schemaToTable l[i] schemas resolved) resolved .create := by
  intro l
  induction l with
  | nil =>
    intro v i hi hi'
    exact absurd hi (by simp)
  | cons s rest ih =>
    intro v i hi hi'
    cases i with
    | zero => simp [createArtifactsFrom]
    | succ j =>
      have hj : j < rest.length := by simpa using hi
      have hj' : j < (createArtifactsFrom schemas resolved (v + 1) rest).length := by
        rw [createArtifactsFrom_length]
        exact hj
      simp only [createArtifactsFrom, List.getElem_cons_succ]
      rw [ih (v + 1) j hj hj']
      congr 1
      push_cast
      ring

theorem generatePivotTable_eq_none (schema : LoadedSchema) (pn : String)
    (p : PropertyDefinition) (schemas : SchemaCollection) (resolved : ResolvedSqlOptions)
    (h : p.type = "Association" → p.relation = some "ManyToOne" ∨ p.relation = some "OneToOne") :
    generatePivotTable schema pn p schemas resolved = none := by
  unfold generatePivotTable
  by_cases hA : p.type = "Association"
  · rcases h hA with hr | hr <;> simp [hA, hr]
  · simp [bne_iff_ne.mpr hA]

theorem generateMorphPivotTable_eq_none (schema : LoadedSchema) (pn : String)
    (p : PropertyDefinition) (schemas : SchemaCollection) (resolved : ResolvedSqlOptions)
    (h : p.type = "Association" → p.relation = some "ManyToOne" ∨ p.relation = some "OneToOne") :
    generateMorphPivotTable schema pn p schemas resolved = none := by
  unfold generateMorphPivotTable
  by_cases hA : p.type = "Association"
  · rcases h hA with hr | hr <;> simp [hA, hr]
  · simp [bne_iff_ne.mpr hA]

theorem foldl_id {α σ : Type _} (f : σ → α → σ) (l : List α) (s : σ)
    (h : ∀ a ∈ l, ∀ s', f s' a = s') : l.foldl f s = s := by
  induction l generalizing s with
  | nil => rfl
  | cons a t ih =>
    rw [List.foldl_cons, h a (List.mem_cons_self a t)]
    exact ih s (fun a' ha' s' => h a' (List.mem_cons_of_mem a ha') s')

theorem schemaToTable_name (s : LoadedSchema) (a : SchemaCollection) (o : ResolvedSqlOptions) :
    (schemaToTable s a o).name = toTableName s.name := rfl

theorem createArtifact_name (v : Int) (t : SqlTable) (r : ResolvedSqlOptions) (ty : MigrationType) :
    (createArtifact v t r ty).name = "create_" ++ t.name := rfl

theorem createArtifact_type (v : Int) (t : SqlTable) (r : ResolvedSqlOptions) (ty : MigrationType) :
    (createArtifact v t r ty).type = ty := rfl

/-- C1: with only ManyToOne/OneToOne association edges and an acyclic
dependency graph, every referenced (non-enum) entity's create artifact
strictly precedes the referencing entity's create artifact in the returned
migration list. -/
theorem create_artifacts_dependency_ordered (schemas : SchemaCollection)
    (options : SqlGeneratorOptions)
    (hwf : WFCollection schemas)
    (honly : ∀ p ∈ schemas, ∀ q ∈ (p : String × LoadedSchema).2.properties,
      (q : String × PropertyDefinition).2.type = "Association" →
      q.2.relation = some "ManyToOne" ∨ q.2.relation = some "OneToOne")
    (hacyc : AcyclicDeps schemas)
    (migs : List SqlMigration)
    (hok : generateMigrations schemas options = Except.ok migs)
    (A B : String) (sA sB : LoadedSchema)
    (hA : (A, sA) ∈ schemas) (hAkind : sA.kind ≠ "enum")
    (hB : (B, sB) ∈ schemas) (hBkind : sB.kind ≠ "enum")
    (hdep : B ∈ depTargets sA) :
    ∃ i j, ∃ (hi : i < migs.length) (hj : j < migs.length), i < j
      ∧ migs[i].name = "create_" ++ toTableName B ∧ migs[i].type = MigrationType.create
      ∧ migs[j].name = "create_" ++ toTableName A ∧ migs[j].type = MigrationType.create := by
  set resolved := resolveOptions options with hres
  -- the filtered collection
  set obj := schemas.filter (fun entry => entry.2.kind != "enum") with hobj
  have hwfobj : WFCollection obj := by
    constructor
    · exact hwf.1.sublist (List.Sublist.map Prod.fst (List.filter_sublist schemas))
    · intro p hp
      exact hwf.2 p (List.mem_of_mem_filter hp)
  have hedgemono : ∀ a b, DepEdge obj a b → DepEdge schemas a b := by
    intro a b ⟨s, hlk, hd⟩
    exact ⟨s, scLookup_of_mem_nodup hwf.1 (List.mem_of_mem_filter (scLookup_mem hlk)), hd⟩
  have hacycobj : AcyclicDeps obj := by
    intro a hcyc
    exact hacyc a (Relation.TransGen.mono hedgemono hcyc)
  obtain ⟨hord, hlookup, hcomplete⟩ := topologicalSort_spec obj hwfobj hacycobj
  set ts := topologicalSort obj with hts
  -- every sorted schema is a non-enum member of the full collection
  have htsmem : ∀ s ∈ ts, (s.name, s) ∈ schemas := fun s hs =>
    List.mem_of_mem_filter (scLookup_mem (hlookup s hs))
  -- migs is exactly the create-artifact list
  have hmigs : migs = createArtifactsFrom schemas resolved resolved.startVersion ts := by
    have hcore : migs = generateMigrationsCore schemas resolved := by
      rcases hval : validateSchemaCompatibility schemas resolved.dialect with e | u
      · simp only [generateMigrations, hval] at hok
        exact absurd hok (by simp)
      · simp only [generateMigrations, hval, Except.ok.injEq] at hok
        exact hok.symm
    rw [hcore]
    simp only [generateMigrationsCore]
    rw [← hobj, ← hts]
    rw [createFold_eq schemas resolved ts [] resolved.startVersion]
    have hid : ts.foldl
        (fun (st : List SqlMigration × Int × List String) schema =>
          schema.properties.foldl (pivotStep schemas resolved schema) st)
        (([] ++ createArtifactsFrom schemas resolved resolved.startVersion ts,
          resolved.startVersion + ts.length).1,
         ([] ++ createArtifactsFrom schemas resolved resolved.startVersion ts,
          resolved.startVersion + ts.length).2, [])
        = (([] ++ createArtifactsFrom schemas resolved resolved.startVersion ts,
          resolved.startVersion + ts.length).1,
         ([] ++ createArtifactsFrom schemas resolved resolved.startVersion ts,
          resolved.startVersion + ts.length).2, []) := by
      apply foldl_id
      intro schema hschema st'
      apply foldl_id
      intro pp hpp st''
      have hcond : pp.2.type = "Association" →
          pp.2.relation = some "ManyToOne" ∨ pp.2.relation = some "OneToOne" :=
        honly (schema.name, schema) (htsmem schema hschema) pp hpp
      unfold pivotStep
      rw [generatePivotTable_eq_none _ _ _ _ _ hcond,
        generateMorphPivotTable_eq_none _ _ _ _ _ hcond]
      rfl
    rw [hid]
    simp
  -- locate A in the sorted output
  have hAobj : (A, sA) ∈ obj := List.mem_filter.mpr ⟨hA, bne_iff_ne.mpr hAkind⟩
  have hBobj : (B, sB) ∈ obj := List.mem_filter.mpr ⟨hB, bne_iff_ne.mpr hBkind⟩
  have hAkey : A ∈ scKeys obj := List.mem_map.mpr ⟨(A, sA), hAobj, rfl⟩
  have hBkey : B ∈ scKeys obj := List.mem_map.mpr ⟨(B, sB), hBobj, rfl⟩
  obtain ⟨j, hj, hjA⟩ := hcomplete A hAkey
  have htsj : ts[j] = sA := by
    have h1 : scLookup obj (ts[j]).name = some ts[j] := hlookup ts[j] (List.getElem_mem hj)
    rw [hjA] at h1
    have h2 : scLookup obj A = some sA := scLookup_of_mem_nodup hwfobj.1 hAobj
    rw [h1] at h2
    exact (Option.some.injEq _ _).mp h2
  obtain ⟨i, hi, hij, hiB⟩ := hord j hj B (by rw [htsj]; exact hdep) hBkey
  -- translate indices to the artifact list
  subst hmigs
  have hilen : i < (createArtifactsFrom schemas resolved resolved.startVersion ts).length := by
    rw [createArtifactsFrom_length]
    exact hi
  have hjlen : j < (createArtifactsFrom schemas resolved resolved.startVersion ts).length := by
    rw [createArtifactsFrom_length]
    exact hj
  refine ⟨i, j, hilen, hjlen, hij, ?_, ?_, ?_, ?_⟩
  · rw [createArtifactsFrom_getElem schemas resolved ts resolved.startVersion i hi hilen,
      createArtifact_name, schemaToTable_name, hiB]
  · rw [createArtifactsFrom_getElem schemas resolved ts resolved.startVersion i hi hilen,
      createArtifact_type]
  · rw [createArtifactsFrom_getElem schemas resolved ts resolved.startVersion j hj hjlen,
      createArtifact_name, schemaToTable_name, htsj, hwf.2 (A, sA) hA]
  · rw [createArtifactsFrom_getElem schemas resolved ts resolved.startVersion j hj hjlen,
      createArtifact_type]

theorem acyclic_of_rank (schemas : SchemaCollection) (rank : String → Nat)
    (h : ∀ a b, DepEdge schemas a b → rank b < rank a) : AcyclicDeps schemas := by
  intro a hcyc
  have key : ∀ x y, Relation.TransGen (DepEdge schemas) x y → rank y < rank x := by
    intro x y hxy
    induction hxy with
    | single h1 => exact h _ _ h1
    | tail _ h2 ih => exact lt_trans (h _ _ h2) ih
  exact lt_irrefl _ (key a a hcyc)

/-- Witness input: Comment depends on Post depends on User. -/
def commentSchemaW : LoadedSchema :=
  { name := "Comment", kind := "object"
    properties := [("post", { type := "Association", relation := some "ManyToOne", target := some "Post" })] }

def postDepSchemaW : LoadedSchema :=
  { name := "Post", kind := "object"
    properties := [("author", { type := "Association", relation := some "ManyToOne", target := some "User" })] }

def userDepSchemaW : LoadedSchema := { name := "User", kind := "object" }

def depSchemasW : SchemaCollection :=
  [("Comment", commentSchemaW), ("Post", postDepSchemaW), ("User", userDepSchemaW)]

def rankW (n : String) : Nat := if n == "Comment" then 2 else if n == "Post" then 1 else 0

theorem depSchemasW_acyclic : AcyclicDeps depSchemasW := by
  apply acyclic_of_rank depSchemasW rankW
  rintro a b ⟨s, hlk, hd⟩
  have hmem := scLookup_mem hlk
  rcases List.mem_cons.mp hmem with heq | hmem
  · injection heq with ha hs
    subst ha
    subst hs
    have hdt : depTargets commentSchemaW = ["Post"] := rfl
    rw [hdt] at hd
    have hb := List.mem_singleton.mp hd
    subst hb
    decide
  · rcases List.mem_cons.mp hmem with heq | hmem
    · injection heq with ha hs
      subst ha
      subst hs
      have hdt : depTargets postDepSchemaW = ["User"] := rfl
      rw [hdt] at hd
      have hb := List.mem_singleton.mp hd
      subst hb
      decide
    · rcases List.mem_cons.mp hmem with heq | hmem
      · injection heq with ha hs
        subst ha
        subst hs
        have hdt : depTargets userDepSchemaW = [] := rfl
        rw [hdt] at hd
        cases hd
      · cases hmem

theorem create_artifacts_dependency_ordered_witness :
    ∃ i j, ∃ (hi : i < ((generateMigrations depSchemasW {}).toOption.getD []).length)
      (hj : j < ((generateMigrations depSchemasW {}).toOption.getD []).length), i < j
      ∧ ((generateMigrations depSchemasW {}).toOption.getD [])[i].name
          = "create_" ++ toTableName "Post"
      ∧ ((generateMigrations depSchemasW {}).toOption.getD [])[i].type = MigrationType.create
      ∧ ((generateMigrations depSchemasW {}).toOption.getD [])[j].name
          = "create_" ++ toTableName "Comment"
      ∧ ((generateMigrations depSchemasW {}).toOption.getD [])[j].type = MigrationType.create :=
  create_artifacts_dependency_ordered depSchemasW {} ⟨by decide, by decide⟩ (by decide)
    depSchemasW_acyclic _ (by rfl) "Comment" "Post" commentSchemaW postDepSchemaW
    (by decide) (by decide) (by decide) (by decide) (by decide)
